import Mathlib

/-!
Verification of the auth-extractor repository's specification against a
shallow Lean embedding of its TypeScript source.

Modelling conventions:
* A repository corpus is a list of `SFile` (relative path + text content);
  the list order is the file-enumeration order of the corpus (glob calls
  are modelled as order-preserving filters of the corpus).
* JavaScript regular expressions are embedded as dedicated scanning
  functions.  Each scanner carries a comment quoting the source regex and
  implements its leftmost-match / greedy semantics for that pattern shape.
* `content.includes(x)` is embedded as the substring test `hasSub`.
* Record fields that hold verbatim code excerpts (`template`,
  `implementation`, `setup`, `usage`, `checkPattern`, ...) are omitted
  from the embedded record types: no claim under verification mentions
  them, and they are plain substrings of the scanned file.  Likewise the
  impure `metadata.extractedAt` timestamp and the display-only
  `instructions`/`utilities` fields are omitted.
-/

/-- A source file of the scanned repository: path relative to the working
tree root, plus its text content. -/
structure SFile where
  path : String
  content : String
deriving DecidableEq, Repr

/-! ## Basic string machinery (JS `includes`, `trim`, `split`, `\s`, `\w`) -/

/-- Substring occurrence on character lists (JS `String.prototype.includes`). -/
def hasSubL (pat : List Char) : List Char → Bool
  | [] => pat.isPrefixOf ([] : List Char)
  | c :: t => pat.isPrefixOf (c :: t) || hasSubL pat t

/-- JS `content.includes(pat)`. -/
def hasSub (s pat : String) : Bool := hasSubL pat.data s.data

/-- The JS `\s` character class, restricted to its ASCII members (the
scanned sources only contain ASCII whitespace). -/
def isJsSpace (c : Char) : Bool :=
  c = ' ' || c = '\t' || c = '\n' || c = '\r' || c = '\x0b' || c = '\x0c'

/-- The JS `\w` character class `[A-Za-z0-9_]`. -/
def isWordC (c : Char) : Bool := c.isAlphanum || c = '_'

/-- JS `String.prototype.trim` (ASCII whitespace). -/
def jsTrim (s : String) : String :=
  String.mk (((s.data.dropWhile isJsSpace).reverse.dropWhile isJsSpace).reverse)

/-- JS `String.prototype.split` with a single-character separator
(structural recursion so that the kernel can evaluate it). -/
def splitCharAux (sep : Char) : List Char → List Char → List (List Char)
  | [], acc => [acc.reverse]
  | c :: t, acc =>
    if c = sep then acc.reverse :: splitCharAux sep t []
    else splitCharAux sep t (c :: acc)

/-- JS `s.split(sep)` for a one-character separator. -/
def jsSplit (sep : Char) (s : String) : List String :=
  (splitCharAux sep s.data []).map String.mk

/-- ASCII lower-casing of one character (the scanned role names are
ASCII, where JS `toLowerCase` agrees with this). -/
def asciiLowerC (c : Char) : Char :=
  if 'A' ≤ c ∧ c ≤ 'Z' then Char.ofNat (c.toNat + 32) else c

/-- JS `String.prototype.toLowerCase`, ASCII fragment. -/
def asciiLower (s : String) : String := String.mk (s.data.map asciiLowerC)

/-- JS `String.prototype.endsWith`. -/
def strEndsWith (s suffix : String) : Bool := suffix.data.isSuffixOf s.data

/-- JS `s.replace(/["']/g, "")`. -/
def stripQuotes (s : String) : String :=
  String.mk (s.data.filter (fun c => !(c = '"' || c = '\x27')))

/-- JS `parseInt` on a nonempty digit string. -/
def digitsToNat (ds : List Char) : Nat :=
  ds.foldl (fun n c => n * 10 + (c.toNat - '0'.toNat)) 0

/-! ## Tiny parsing helpers for the embedded regexes

Each parser consumes a prefix of a `List Char` and returns the rest (and a
captured value where the regex captures).  `none` means the pattern does
not match at this position. -/

/-- Match a literal string (a regex literal). -/
def pLit (w : List Char) (cs : List Char) : Option (List Char) :=
  if w.isPrefixOf cs then some (cs.drop w.length) else none

/-- Regex alternation of literals `(?:a|b|c)`, tried left to right as a JS
engine does. -/
def pAlt (ws : List String) (cs : List Char) : Option (List Char) :=
  ws.findSome? (fun w => pLit w.data cs)

/-- `\s+` (greedy; the following token in every embedded pattern is never a
whitespace character, so no backtracking can occur). -/
def pWs1 (cs : List Char) : Option (List Char) :=
  match cs with
  | c :: t => if isJsSpace c then some (t.dropWhile isJsSpace) else none
  | [] => none

/-- `\s*` (greedy, same remark as `pWs1`). -/
def pWs0 (cs : List Char) : List Char := cs.dropWhile isJsSpace

/-- A single character from a class such as `["']` or `[=:]`. -/
def pOneOf (allowed : List Char) (cs : List Char) : Option (List Char) :=
  match cs with
  | c :: t => if allowed.contains c then some t else none
  | [] => none

/-- `(\w+)` capture (greedy; every embedded pattern follows it with a
non-word character, so the maximal run is the only viable match). -/
def pWord1 (cs : List Char) : Option (String × List Char) :=
  let w := cs.takeWhile isWordC
  if w.isEmpty then none else some (String.mk w, cs.drop w.length)

/-- `([^X]+)` capture followed by the literal `X` (greedy: the maximal
`X`-free run, which must be nonempty and actually followed by `X`). -/
def pUntil1 (x : Char) (cs : List Char) : Option (String × List Char) :=
  let w := cs.takeWhile (fun c => c ≠ x)
  if w.isEmpty then none
  else
    match cs.drop w.length with
    | c :: t => if c = x then some (String.mk w, t) else none
    | [] => none

/-- `(\d+)` capture, returned as a number (JS `parseInt` of the maximal
digit run). -/
def pNum1 (cs : List Char) : Option (Nat × List Char) :=
  let w := cs.takeWhile Char.isDigit
  if w.isEmpty then none else some (digitsToNat w, cs.drop w.length)

/-- Leftmost-match search: try the pattern at every position, first hit
wins (JS `String.prototype.match` without the `g` flag). -/
def scanFirst (try1 : List Char → Option α) : List Char → Option α
  | [] => try1 []
  | c :: t => try1 (c :: t) <|> scanFirst try1 t

/-- All matches in order (JS `RegExp.prototype.exec` loop with the `g`
flag): after a hit the scan resumes at the end of the match (`lastIndex`),
advancing at least one character. -/
def scanAllAux (step : List Char → Option (α × Nat)) :
    Nat → List Char → List α
  | 0, _ => []
  | _ + 1, [] => []
  | fuel + 1, c :: t =>
    match step (c :: t) with
    | some (a, n) => a :: scanAllAux step fuel ((c :: t).drop (max n 1))
    | none => scanAllAux step fuel t

/-- `scanAll` runs `scanAllAux` with enough fuel: every recursive call
drops at least one character, so `cs.length` steps always suffice. -/
def scanAll (step : List Char → Option (α × Nat)) (cs : List Char) :
    List α :=
  scanAllAux step cs.length cs

/-- Turn a rest-returning parser into a consumed-length step for `scanAll`. -/
def asStep (try1 : List Char → Option (α × List Char)) (cs : List Char) :
    Option (α × Nat) :=
  (try1 cs).map (fun p => (p.1, cs.length - p.2.length))

/-! ## Role-model extractor (source: role-model-extractor, `extractRoles`,
`extractPermissions`, `extractHierarchy`, `extractRoleModel`) -/

/-- `RoleDefinition` from the source types (description/level fields are
never written by the extractor and are omitted). -/
structure RoleDefinition where
  name : String
  permissions : List String
deriving DecidableEq, Repr

/-- `PermissionDefinition` from the source types. -/
structure PermissionDefinition where
  name : String
deriving DecidableEq, Repr

/-- `RoleHierarchy` from the source types (the `inheritance` field is
never written). -/
structure RoleHierarchy where
  levels : List (String × Nat)
deriving DecidableEq, Repr

/-- Source regex `/(?:const|let|var)\s+KWs?\s*=\s*O([^C]+)C/s` at one
position, where `KW` is `role` or `permission`, `O`/`C` the bracket pair.
The optional `s` is greedy but backtracks (try with `s`, then without). -/
def tryDeclAt (kw : String) (openC closeC : Char) (cs : List Char) :
    Option String :=
  match pAlt ["const", "let", "var"] cs with
  | none => none
  | some cs1 =>
    match pWs1 cs1 with
    | none => none
    | some cs2 =>
      match pLit kw.data cs2 with
      | none => none
      | some cs3 =>
        let rest := fun (cs4 : List Char) =>
          match pLit ['='] (pWs0 cs4) with
          | none => none
          | some cs5 =>
            match pLit [openC] (pWs0 cs5) with
            | none => none
            | some cs6 => (pUntil1 closeC cs6).map Prod.fst
        (match pLit ['s'] cs3 with
         | some cs4 => rest cs4 <|> rest cs3
         | none => rest cs3)

/-- First match of the declaration pattern in the whole content
(JS `content.match(pattern)` capture group 1). -/
def declCapture (kw : String) (openC closeC : Char) (content : String) :
    Option String :=
  scanFirst (tryDeclAt kw openC closeC) content.data

/-- Source regex `/(\w+):\s*\[([^\]]+)\]/` at one position (used on each
comma-split entry of a role object literal). -/
def tryObjEntryAt (cs : List Char) : Option (String × String) :=
  match pWord1 cs with
  | none => none
  | some (name, cs1) =>
    match pLit [':'] cs1 with
    | none => none
    | some cs2 =>
      match pLit ['['] (pWs0 cs2) with
      | none => none
      | some cs3 => (pUntil1 ']' cs3).map (fun p => (name, p.1))

/-- Source regex `/user\.role\s*[=:]\s*["'](\w+)["']/g` at one position. -/
def tryUserRoleAt (cs : List Char) : Option (String × List Char) :=
  match pLit ("user.role".data) cs with
  | none => none
  | some cs1 =>
    match pOneOf ['=', ':'] (pWs0 cs1) with
    | none => none
    | some cs2 =>
      match pOneOf ['"', '\x27'] (pWs0 cs2) with
      | none => none
      | some cs3 =>
        match pWord1 cs3 with
        | none => none
        | some (name, cs4) =>
          match pOneOf ['"', '\x27'] cs4 with
          | none => none
          | some cs5 => some (name, cs5)

/-- Source regex
`/(?:hasPermission|can|checkPermission)\s*\([^,]+,\s*["'](\w+)["']/g`
at one position. -/
def tryPermCallAt (cs : List Char) : Option (String × List Char) :=
  match pAlt ["hasPermission", "can", "checkPermission"] cs with
  | none => none
  | some cs1 =>
    match pLit ['('] (pWs0 cs1) with
    | none => none
    | some cs2 =>
      match pUntil1 ',' cs2 with
      | none => none
      | some (_, cs3) =>
        match pOneOf ['"', '\x27'] (pWs0 cs3) with
        | none => none
        | some cs4 =>
          match pWord1 cs4 with
          | none => none
          | some (name, cs5) =>
            match pOneOf ['"', '\x27'] cs5 with
            | none => none
            | some cs6 => some (name, cs6)

/-- The source's closed role vocabulary. -/
def commonRoles : List String :=
  ["admin", "user", "viewer", "editor", "moderator", "guest"]

/-- The source's closed permission vocabulary. -/
def commonPermissions : List String :=
  ["read", "write", "delete", "update", "create", "view", "edit", "admin"]

/-- `extractRoles` (role-model extractor): array literal, object literal,
closed vocabulary, `user.role` assignments — in that push order, with the
source's `!roles.find(...)` duplicate guards on the last two rules. -/
def extractRoles (content : String) : List RoleDefinition :=
  let roles1 : List RoleDefinition :=
    match declCapture "role" '[' ']' content with
    | some inner =>
      ((jsSplit ',' inner).map (fun s => stripQuotes (jsTrim s))).filterMap
        (fun n => if n.data.isEmpty then none else some ⟨n, []⟩)
    | none => []
  let roles2 : List RoleDefinition :=
    roles1 ++
      (match declCapture "role" '{' '}' content with
       | some inner =>
         ((jsSplit ',' inner).map jsTrim).filterMap (fun e =>
           (scanFirst tryObjEntryAt e.data).map (fun p =>
             ⟨p.1, (jsSplit ',' p.2).map (fun q => stripQuotes (jsTrim q))⟩))
       | none => [])
  let roles3 : List RoleDefinition :=
    commonRoles.foldl (fun acc n =>
      if (hasSub content ("role === \"" ++ n ++ "\"") ||
          hasSub content ("role === \x27" ++ n ++ "\x27") ||
          hasSub content ("role: \"" ++ n ++ "\"") ||
          hasSub content ("role: \x27" ++ n ++ "\x27")) &&
         !(acc.any (fun r => r.name == n)) then
        acc ++ [⟨n, []⟩]
      else acc) roles2
  (scanAll (asStep tryUserRoleAt) content.data).foldl (fun acc n =>
    if acc.any (fun r => r.name == n) then acc else acc ++ [⟨n, []⟩]) roles3

/-- `extractPermissions`: array literal, permission-check call sites,
closed vocabulary — in that push order, with duplicate guards on the last
two rules. -/
def extractPermissions (content : String) : List PermissionDefinition :=
  let perms1 : List PermissionDefinition :=
    match declCapture "permission" '[' ']' content with
    | some inner =>
      ((jsSplit ',' inner).map (fun s => stripQuotes (jsTrim s))).filterMap
        (fun n => if n.data.isEmpty then none else some ⟨n⟩)
    | none => []
  let perms2 : List PermissionDefinition :=
    (scanAll (asStep tryPermCallAt) content.data).foldl (fun acc n =>
      if acc.any (fun p => p.name == n) then acc else acc ++ [⟨n⟩]) perms1
  commonPermissions.foldl (fun acc n =>
    if (hasSub content ("permission === \"" ++ n ++ "\"") ||
        hasSub content ("permission === \x27" ++ n ++ "\x27")) &&
       !(acc.any (fun p => p.name == n)) then
      acc ++ [⟨n⟩]
    else acc) perms2

/-- JS `Array.from(new Map(l.map(x => [key x, x])).values())`: inserting
an existing key overwrites the stored value but keeps the key's original
insertion position; `values()` returns insertion order. -/
def jsMapValuesBy (key : α → String) (l : List α) : List α :=
  l.foldl (fun acc x =>
    if acc.any (fun y => key y == key x) then
      acc.map (fun y => if key y == key x then x else y)
    else acc ++ [x]) []

/-- The fixed role-level table of `extractHierarchy`. -/
def levelMap : List (String × Nat) :=
  [("admin", 3), ("moderator", 2), ("editor", 2),
   ("user", 1), ("viewer", 1), ("guest", 0)]

/-- `extractHierarchy`: look each role name up (lowercased) in `levelMap`;
the source guard `if (levelMap[name])` is a JS truthiness test, so both a
missing entry (`undefined`) and the value `0` are skipped.  An empty
result becomes `undefined` (here `none`). -/
def extractHierarchy (roles : List RoleDefinition) : Option RoleHierarchy :=
  let hierarchy : List (String × Nat) :=
    roles.foldl (fun acc role =>
      match levelMap.lookup (asciiLower role.name) with
      | some lv =>
        if lv ≠ 0 then
          if acc.any (fun p => p.1 == role.name) then
            acc.map (fun p => if p.1 == role.name then (p.1, lv) else p)
          else acc ++ [(role.name, lv)]
        else acc
      | none => acc) []
  if hierarchy.isEmpty then none else some ⟨hierarchy⟩

/-- The keyword prefilter of `extractRoleModel`'s file glob. -/
def roleFileKw (c : String) : Bool :=
  hasSub c "role" || hasSub c "Role" || hasSub c "permission" ||
  hasSub c "Permission" || hasSub c "admin" || hasSub c "user" ||
  hasSub c "RBAC" || hasSub c "ABAC"

/-- Extension filter of the glob `**/*.{ts,tsx,js}`. -/
def extOkTS (path : String) : Bool :=
  strEndsWith path ".ts" || strEndsWith path ".tsx" || strEndsWith path ".js"

/-- The files `extractRoleModel` scans, in corpus-enumeration order. -/
def roleFiles (corpus : List SFile) : List SFile :=
  corpus.filter (fun f => extOkTS f.path && roleFileKw f.content)

/-- The result record of the role-model extractor (excerpt field omitted). -/
structure RoleModelR where
  roles : List RoleDefinition
  permissions : List PermissionDefinition
  hierarchy : Option RoleHierarchy
deriving DecidableEq, Repr

/-- All role candidates gathered across files before deduplication. -/
def gatherRoles (corpus : List SFile) : List RoleDefinition :=
  (roleFiles corpus).flatMap (fun f => extractRoles f.content)

/-- All permission candidates gathered across files before deduplication. -/
def gatherPermissions (corpus : List SFile) : List PermissionDefinition :=
  (roleFiles corpus).flatMap (fun f => extractPermissions f.content)

/-- `extractRoleModel`: push per-file candidates in file order, then
deduplicate by name with the JS-`Map` rule, then derive the hierarchy. -/
def extractRoleModel (corpus : List SFile) : RoleModelR :=
  let uniqueRoles := jsMapValuesBy RoleDefinition.name (gatherRoles corpus)
  let uniquePermissions :=
    jsMapValuesBy PermissionDefinition.name (gatherPermissions corpus)
  { roles := uniqueRoles
    permissions := uniquePermissions
    hierarchy := extractHierarchy uniqueRoles }

/-! ## Deduplication semantics of the JS `Map` construction (claim C1) -/

/-- One `Map.set` step of `jsMapValuesBy`: overwrite the value of an
existing key in place, otherwise append. -/
def mapSetStep {α : Type} (key : α → String) (acc : List α) (x : α) :
    List α :=
  if acc.any (fun y => key y == key x) then
    acc.map (fun y => if key y == key x then x else y)
  else acc ++ [x]

/-! ## Acquisition controller: branch × url-format download fallback
(source: the POST route handler's zip-download loop).  Network fetches are
modelled by an oracle `String → FetchOutcome`; extracting a downloaded
archive into the working tree is modelled as always succeeding (its
failure would be caught and recorded like any other attempt error, which
no claim under verification depends on). -/

/-- Outcome of one `fetch(zipUrl)`: a thrown network error, or a response
with its `ok` flag, numeric status, status text and body bytes. -/
inductive FetchOutcome where
  | netError (msg : String)
  | resp (ok : Bool) (status : Nat) (statusText : String) (body : List Nat)

/-- `firstBytes[0] === 0x50 && firstBytes[1] === 0x4B` (an out-of-range
read yields `undefined`, which compares unequal). -/
def zipMagic (body : List Nat) : Bool :=
  body.head? == some 0x50 && body.get? 1 == some 0x4B

/-- The three archive-URL formats tried per branch, in source order. -/
def urlFormats (owner repo branch : String) : List String :=
  ["https://github.com/" ++ owner ++ "/" ++ repo ++ "/archive/" ++ branch ++ ".zip",
   "https://api.github.com/repos/" ++ owner ++ "/" ++ repo ++ "/zipball/" ++ branch,
   "https://github.com/" ++ owner ++ "/" ++ repo ++ "/archive/refs/heads/" ++ branch ++ ".zip"]

/-- `Array.from(new Set(l))`: first-seen-order deduplication. -/
def jsSetDedup (l : List String) : List String :=
  l.foldl (fun acc x => if acc.contains x then acc else acc ++ [x]) []

/-- One download attempt: `some errorDetail` when the attempt is recorded
as failed (non-ok response, empty body, or missing ZIP magic), `none` on
success. -/
def attemptError (fetch : String → FetchOutcome) (branch url : String) :
    Option String :=
  match fetch url with
  | .netError m =>
    some ("Branch " ++ branch ++ " (" ++ url ++ "): " ++ m)
  | .resp ok status statusText body =>
    if !ok then
      some ("Branch " ++ branch ++ " (" ++ url ++ "): " ++
        toString status ++ " " ++ statusText)
    else if body.isEmpty then
      some ("Branch " ++ branch ++ " (" ++ url ++ "): Downloaded file is empty")
    else if !(zipMagic body) then
      some ("Branch " ++ branch ++ " (" ++ url ++ "): Response is not a zip file")
    else none

/-- An attempt the source loop accepts (and stops at). -/
def attemptSucceeds (fetch : String → FetchOutcome) (p : String × String) :
    Bool :=
  (attemptError fetch p.1 p.2).isNone

/-- The stopping condition exactly as the claim words it: the HTTP
response is non-empty and begins with the ZIP magic bytes (no mention of
the response's `ok` flag). -/
def claimZipSuccess (fetch : String → FetchOutcome) (url : String) : Bool :=
  match fetch url with
  | .netError _ => false
  | .resp _ _ _ body => !body.isEmpty && zipMagic body

/-- Inner loop over the url formats of one branch, threading the shared
`errors` array; `(some url, errs)` on the first accepted attempt. -/
def tryFormats (fetch : String → FetchOutcome) (branch : String) :
    List String → List String → Option String × List String
  | [], errs => (none, errs)
  | url :: rest, errs =>
    match attemptError fetch branch url with
    | some e => tryFormats fetch branch rest (errs ++ [e])
    | none => (some url, errs)

/-- Outer loop over the deduplicated branch list (`branchDownloaded`
breaks out of the outer loop on success). -/
def tryBranches (fetch : String → FetchOutcome) (owner repo : String) :
    List String → List String → Option (String × String) × List String
  | [], errs => (none, errs)
  | b :: rest, errs =>
    match tryFormats fetch b (urlFormats owner repo b) errs with
    | (some u, errs2) => (some (b, u), errs2)
    | (none, errs2) => tryBranches fetch owner repo rest errs2

/-- The thrown message when every combination failed. -/
def downloadMsg (branches errs : List String) : String :=
  "Failed to download repository. Tried branches: " ++
    String.intercalate ", " branches ++ ". Details: " ++
    String.intercalate "; " errs

/-- The zip-download fallback of the route handler, given the resolved
default branch and the fetch oracle. -/
def downloadRepo (owner repo defaultBranch : String)
    (fetch : String → FetchOutcome) : Except String (String × String) :=
  let branches := jsSetDedup [defaultBranch, "main", "master"]
  match tryBranches fetch owner repo branches [] with
  | (some bu, _) => .ok bu
  | (none, errs) => .error (downloadMsg branches errs)

/-- The branch × url-format combinations in the order the loops try them. -/
def downloadCombos (owner repo defaultBranch : String) :
    List (String × String) :=
  (jsSetDedup [defaultBranch, "main", "master"]).flatMap (fun b =>
    (urlFormats owner repo b).map (fun u => (b, u)))

/-- Flattened scan over combinations: the loop nest is equivalent to it. -/
def flatScan (fetch : String → FetchOutcome) :
    List (String × String) → List String →
      Option (String × String) × List String
  | [], errs => (none, errs)
  | c :: rest, errs =>
    match attemptError fetch c.1 c.2 with
    | some e => flatScan fetch rest (errs ++ [e])
    | none => (some c, errs)

/-- The fetch oracle of the C2 counterexample: the first combination's
url returns a non-ok (404) response whose body nevertheless starts with
the ZIP magic bytes; the second url returns an ok ZIP response. -/
def c2fetch : String → FetchOutcome := fun u =>
  if u = "https://github.com/o/r/archive/main.zip" then
    .resp false 404 "Not Found" [0x50, 0x4B, 1, 2]
  else if u = "https://api.github.com/repos/o/r/zipball/main" then
    .resp true 200 "OK" [0x50, 0x4B, 3, 4]
  else .netError "net"

/-! ## Token-strategy extractor (source: token-strategy-extractor) -/

/-- Continuation after the `[^}]*` gap: either `maxAge:\s*(\d+)` or
`NAME[^:]*:\s*(\d+)` (the `expires_in`/`expiresIn` variants put `[^:]*:`
between the literal and the number; `[^:]*` greedily stops at the first
colon, the only one it can accept). -/
def lifetimeCont (bLit : String) (skipToColon : Bool) (cs : List Char) :
    Option Nat :=
  match pLit bLit.data cs with
  | none => none
  | some cs1 =>
    if skipToColon then
      let run := cs1.takeWhile (fun c => c ≠ ':')
      match cs1.drop run.length with
      | ':' :: cs2 => (pNum1 (pWs0 cs2)).map Prod.fst
      | _ => none
    else (pNum1 (pWs0 cs1)).map Prod.fst

/-- The greedy `[^}]*` gap of the lifetime patterns (and the `[^,]*` gap
of the `setInterval` pattern): the regex engine tries the longest
brace-free gap first, so the continuation is attempted at each offset of
the forbidden-character-free run, largest first. -/
def greedyGapSearch (forbidden : Char) (cont : List Char → Option β)
    (afterA : List Char) : Option β :=
  let runLen := (afterA.takeWhile (fun c => c ≠ forbidden)).length
  (List.range (runLen + 1)).reverse.findSome? (fun j => cont (afterA.drop j))

/-- Source regex `` `${tokenName}[^}]*maxAge:\s*(\d+)` `` (and the
`expires_in` / `expiresIn` variants) at one position. -/
def tryTokenPatAt (tokenName bLit : String) (skipToColon : Bool)
    (cs : List Char) : Option Nat :=
  match pLit tokenName.data cs with
  | none => none
  | some cs1 => greedyGapSearch '}' (lifetimeCont bLit skipToColon) cs1

/-- `extractTokenLifetime(content, ...tokenNames)`: for each token name in
order, try the `maxAge`, `expires_in`, `expiresIn` patterns in order and
return the first captured number. -/
def extractTokenLifetime (content : String) (tokenNames : List String) :
    Option Nat :=
  tokenNames.findSome? (fun tn =>
    (scanFirst (tryTokenPatAt tn "maxAge:" false) content.data) <|>
    (scanFirst (tryTokenPatAt tn "expires_in" true) content.data) <|>
    (scanFirst (tryTokenPatAt tn "expiresIn" true) content.data))

/-- Source regex `/setInterval[^,]*,\s*(\d+)/`. -/
def setIntervalCapture (content : String) : Option Nat :=
  scanFirst (fun cs =>
    match pLit "setInterval".data cs with
    | none => none
    | some cs1 =>
      greedyGapSearch ',' (fun cs2 =>
        match cs2 with
        | ',' :: cs3 => (pNum1 (pWs0 cs3)).map Prod.fst
        | _ => none) cs1) content.data

/-- Source regex `/secure:\s*(true|false)/` (capture group only). -/
def secureCapture (content : String) : Option String :=
  scanFirst (fun cs =>
    match pLit "secure:".data cs with
    | none => none
    | some cs1 =>
      ["true", "false"].findSome? (fun w =>
        if w.data.isPrefixOf (pWs0 cs1) then some w else none)) content.data

/-- Source regex `/sameSite:\s*["'](\w+)["']/` (capture group only). -/
def sameSiteCapture (content : String) : Option String :=
  scanFirst (fun cs =>
    match pLit "sameSite:".data cs with
    | none => none
    | some cs1 =>
      match pOneOf ['"', '\x27'] (pWs0 cs1) with
      | none => none
      | some cs2 =>
        match pWord1 cs2 with
        | none => none
        | some (w, cs3) =>
          match pOneOf ['"', '\x27'] cs3 with
          | none => none
          | some _ => some w) content.data

/-- `TokenConfig` from the source types (here the cookie-flag fields are
`Option`s: `none` models an absent JS property). -/
structure TokenConfigR where
  lifetime : Nat
  storage : String
  httpOnly : Option Bool
  secure : Option Bool
  sameSite : Option String
deriving DecidableEq, Repr

/-- `RefreshStrategy` from the source types (implementation excerpt and
file path omitted). -/
structure RefreshStrategyR where
  type : String
  trigger : String
  interval : Option Nat
deriving DecidableEq, Repr

/-- The token-strategy extractor's result record. -/
structure TokenStrategyR where
  accessToken : TokenConfigR
  refreshToken : Option TokenConfigR
  refreshStrategy : RefreshStrategyR
deriving DecidableEq, Repr

/-- The access-token keyword variants passed to `extractTokenLifetime`. -/
def accessTokenNames : List String :=
  ["access_token", "accessToken", "idToken", "id_token"]

/-- The refresh-token keyword variants. -/
def refreshTokenNames : List String := ["refresh_token", "refreshToken"]

/-- The keyword prefilter of the token-strategy extractor's file glob. -/
def tokenFileKw (c : String) : Bool :=
  hasSub c "access_token" || hasSub c "accessToken" ||
  hasSub c "refresh_token" || hasSub c "refreshToken" ||
  hasSub c "idToken" || hasSub c "id_token"

/-- The files the token-strategy extractor scans, in corpus order. -/
def tokenFiles (corpus : List SFile) : List SFile :=
  corpus.filter (fun f => extOkTS f.path && tokenFileKw f.content)

/-- `extractRefreshStrategy` (the `implementation`/`filePath` excerpt
fields are omitted; `&&` binds tighter than `||` as in the source). -/
def extractRefreshStrategy (content : String) : RefreshStrategyR :=
  if hasSub content "setInterval" ||
     (hasSub content "useEffect" && hasSub content "refresh") then
    { type := "automatic", trigger := "interval",
      interval := some ((setIntervalCapture content).getD 300000) }
  else if hasSub content "expires" && hasSub content "refresh" then
    { type := "automatic", trigger := "before-expiry", interval := none }
  else if hasSub content "refresh" &&
          (hasSub content "function" || hasSub content "const" ||
           hasSub content "async") then
    { type := "manual", trigger := "on-demand", interval := none }
  else { type := "manual", trigger := "on-demand", interval := none }

/-- The cookie-flag overwrites (`httpOnly`, `secure:`, `sameSite`) that
each scanned file applies onto the access-token record. -/
def applyCookieFlags (c : String) (t : TokenConfigR) : TokenConfigR :=
  let a2 :=
    if hasSub c "httpOnly" then
      { t with httpOnly := some true, storage := "httpOnly" }
    else t
  let a3 :=
    if hasSub c "secure:" then
      { a2 with secure := some (secureCapture c == some "true") }
    else a2
  if hasSub c "sameSite" then
    match sameSiteCapture c with
    | some w => { a3 with sameSite := some w }
    | none => a3
  else a3

/-- One iteration of the token-strategy extractor's file loop. -/
def tokenFileStep (acc : TokenStrategyR) (f : SFile) : TokenStrategyR :=
  let c := f.content
  let a1 :=
    match extractTokenLifetime c accessTokenNames with
    | some v =>
      if v ≠ 0 then { acc.accessToken with lifetime := v }
      else acc.accessToken
    | none => acc.accessToken
  let rTS :=
    if hasSub c "refresh_token" || hasSub c "refreshToken" then
      (some { lifetime :=
                (match extractTokenLifetime c refreshTokenNames with
                 | some v => if v ≠ 0 then v else 604800
                 | none => 604800),
              storage := "httpOnly", httpOnly := none, secure := none,
              sameSite := none },
       if hasSub c "refresh" || hasSub c "refreshToken" then
         extractRefreshStrategy c
       else acc.refreshStrategy)
    else (acc.refreshToken, acc.refreshStrategy)
  { accessToken := applyCookieFlags c a1
    refreshToken := rTS.1
    refreshStrategy := rTS.2 }

/-- `extractTokenStrategy`: fold the file loop over the prefiltered files
starting from the documented defaults (3600 s access token, no refresh
token, refresh strategy `none`). -/
def extractTokenStrategy (corpus : List SFile) : TokenStrategyR :=
  (tokenFiles corpus).foldl tokenFileStep
    { accessToken := { lifetime := 3600, storage := "httpOnly",
                       httpOnly := none, secure := none, sameSite := none }
      refreshToken := none
      refreshStrategy := { type := "none", trigger := "on-demand",
                           interval := none } }

/-- The nonzero access-token lifetime annotations carried by the scanned
files, in corpus-enumeration order (the source guard
`if (accessTokenLifetime)` also drops a parsed value of `0`). -/
def accessLifetimeAnnotations (corpus : List SFile) : List Nat :=
  (tokenFiles corpus).filterMap (fun f =>
    match extractTokenLifetime f.content accessTokenNames with
    | some v => if v ≠ 0 then some v else none
    | none => none)

/-! ## Path and glob machinery

`glob.sync(pattern, { cwd })` is modelled as an order-preserving filter of
the corpus by a path predicate implementing minimatch semantics for the
concrete pattern.  In minimatch, `[...nextauth]` in a pattern is a
character class matching exactly one character drawn from
`{., n, e, x, t, a, u, h}` — not the literal directory name. -/

/-- Split a relative path into its `/`-separated segments. -/
def pathSegs (path : String) : List String := jsSplit '/' path

/-- The last path segment. -/
def baseName (path : String) : String :=
  ((pathSegs path).reverse.head?).getD ""

/-- JS `String.prototype.startsWith`. -/
def strStartsWith (s pre : String) : Bool := pre.data.isPrefixOf s.data

/-- Glob `**/next-auth.{ts,tsx,js}`. -/
def globNextAuthFile (path : String) : Bool :=
  baseName path == "next-auth.ts" || baseName path == "next-auth.tsx" ||
  baseName path == "next-auth.js"

/-- The character class denoted by the pattern segment `[...nextauth]`. -/
def nextauthClassChars : List Char := ['.', 'n', 'e', 'x', 't', 'a', 'u', 'h']

/-- A path segment matching the class `[...nextauth]`: one character from
the class. -/
def isClassSeg (seg : String) : Bool :=
  match seg.data with
  | [c] => nextauthClassChars.contains c
  | _ => false

/-- Glob `**/[...nextauth]/**/*.{ts,tsx,js}`: some non-final segment
matches the one-character class, and the file has a matching extension. -/
def globNextAuthDyn (path : String) : Bool :=
  (pathSegs path).dropLast.any isClassSeg && extOkTS path

/-- Glob `**/firebase*.{ts,tsx,js}`. -/
def globFirebase (path : String) : Bool :=
  strStartsWith (baseName path) "firebase" && extOkTS path

/-- Glob `**/*next-auth*.{ts,tsx,js}` (session-storage extractor). -/
def globNextAuthAny (path : String) : Bool :=
  hasSub (baseName path) "next-auth" && extOkTS path

/-! ## Auth-provider extractor (source: auth-provider-extractor) -/

/-- The configuration fields the extractor actually computes from the
file (constant env-var strings are omitted). -/
structure AuthProviderConfigR where
  providers : List String
  adapter : Option String
  strategy : Option String
deriving DecidableEq, Repr

/-- A named callback sample (file-path provenance and the `implementation`
excerpt's enclosing record omitted; the body capture is kept because its
success decides whether the sample exists). -/
structure CallbackR where
  name : String
  body : String
deriving DecidableEq, Repr

/-- The auth-provider extractor's result record. -/
structure AuthProviderR where
  type : String
  name : String
  configuration : AuthProviderConfigR
  callbacks : Option (List CallbackR)
deriving DecidableEq, Repr

/-- Source regex `/strategy:\s*["'](\w+)["']/` (capture group only). -/
def strategyCapture (content : String) : Option String :=
  scanFirst (fun cs =>
    match pLit "strategy:".data cs with
    | none => none
    | some cs1 =>
      match pOneOf ['"', '\x27'] (pWs0 cs1) with
      | none => none
      | some cs2 =>
        match pWord1 cs2 with
        | none => none
        | some (w, cs3) =>
          match pOneOf ['"', '\x27'] cs3 with
          | none => none
          | some _ => some w) content.data

/-- Source regex
`` `${name}:\s*async?\s*\([^)]*\)\s*=>\s*\{([^}]+(?:\{[^}]*\}[^}]*)*)\}` ``
at one position.  Notes on its semantics: `async?` is the literal `asyn`
followed by an optional `c`; and because the capture's leading `[^}]+` is
greedy and the final `\}` always matches right after the maximal
brace-free run, the `(?:\{[^}]*\}[^}]*)*` clause never consumes anything,
so the capture is exactly the (nonempty) text up to the first `}`. -/
def tryCallbackAt (name : String) (cs : List Char) : Option String :=
  match pLit (name ++ ":").data cs with
  | none => none
  | some cs1 =>
    match pLit "asyn".data (pWs0 cs1) with
    | none => none
    | some cs2 =>
      let cs3 := match pLit ['c'] cs2 with | some r => r | none => cs2
      match pLit ['('] (pWs0 cs3) with
      | none => none
      | some cs4 =>
        let run := cs4.takeWhile (fun c => c ≠ ')')
        match cs4.drop run.length with
        | ')' :: cs5 =>
          match pLit "=>".data (pWs0 cs5) with
          | none => none
          | some cs6 =>
            match pLit ['{'] (pWs0 cs6) with
            | none => none
            | some cs7 => (pUntil1 '}' cs7).map (fun p => jsTrim p.1)
        | _ => none

/-- `extractCallback(content, name)` (the result is already trimmed, as
`match[1].trim()` in the source). -/
def extractCallback (content : String) (name : String) : Option String :=
  scanFirst (tryCallbackAt name) content.data

/-- `extractNextAuth` on the matched file's content. -/
def extractNextAuth (f : SFile) : AuthProviderR :=
  let content := f.content
  let providers :=
    (if hasSub content "GoogleProvider" then ["google"] else []) ++
    (if hasSub content "EmailProvider" then ["email"] else []) ++
    (if hasSub content "GitHubProvider" then ["github"] else []) ++
    (if hasSub content "CredentialsProvider" then ["credentials"] else [])
  let adapter :=
    if hasSub content "PrismaAdapter" then some "prisma"
    else if hasSub content "FirestoreAdapter" then some "firestore"
    else if hasSub content "MongoDBAdapter" then some "mongodb"
    else none
  let strategy := (strategyCapture content).getD "jwt"
  let callbacks :=
    (match extractCallback content "session" with
     | some b => [CallbackR.mk "session" b]
     | none => []) ++
    (match extractCallback content "jwt" with
     | some b => [CallbackR.mk "jwt" b]
     | none => [])
  { type := "next-auth", name := "NextAuth.js"
    configuration :=
      { providers := providers, adapter := adapter, strategy := some strategy }
    callbacks := some callbacks }

/-- `extractFirebaseAuth` (constant configuration). -/
def firebaseResult : AuthProviderR :=
  { type := "firebase", name := "Firebase Authentication"
    configuration :=
      { providers := ["firebase"], adapter := none, strategy := none }
    callbacks := none }

/-- `extractCognito` (constant configuration). -/
def cognitoResult : AuthProviderR :=
  { type := "cognito", name := "AWS Cognito"
    configuration :=
      { providers := ["cognito"], adapter := none, strategy := none }
    callbacks := none }

/-- The `unknown` default. -/
def unknownProviderResult : AuthProviderR :=
  { type := "unknown", name := "Unknown"
    configuration := { providers := [], adapter := none, strategy := none }
    callbacks := none }

/-- `extractAuthProvider`: NextAuth path globs, then Firebase files with
auth markers, then any file mentioning cognito, else unknown. -/
def extractAuthProvider (corpus : List SFile) : AuthProviderR :=
  match (corpus.filter (fun f => globNextAuthFile f.path)).head? <|>
        (corpus.filter (fun f => globNextAuthDyn f.path)).head? with
  | some f => extractNextAuth f
  | none =>
    match (corpus.filter (fun f => globFirebase f.path)).find? (fun f =>
        hasSub f.content "firebase/auth" || hasSub f.content "signInWith") with
    | some _ => firebaseResult
    | none =>
      match (corpus.filter (fun f => extOkTS f.path)).find? (fun f =>
          hasSub f.content "cognito" || hasSub f.content "COGNITO") with
      | some _ => cognitoResult
      | none => unknownProviderResult

/-! ## Session-storage extractor (source: session-storage-extractor) -/

/-- The configuration fields of the session-storage result. -/
structure SessionConfigR where
  type : String
  httpOnly : Option Bool
  secure : Option Bool
  sameSite : Option String
  adapter : Option String
  maxAge : Option Nat
deriving DecidableEq, Repr

/-- The lifetime fields of the session-storage result. -/
structure SessionLifetimeR where
  accessToken : Nat
  session : Option Nat
deriving DecidableEq, Repr

/-- The session-storage extractor's result record. -/
structure SessionStorageR where
  strategy : String
  configuration : SessionConfigR
  lifetime : SessionLifetimeR
deriving DecidableEq, Repr

/-- Source regex `/maxAge:\s*(\d+)/` (capture group only). -/
def maxAgeCapture (content : String) : Option Nat :=
  scanFirst (fun cs =>
    match pLit "maxAge:".data cs with
    | none => none
    | some cs1 => (pNum1 (pWs0 cs1)).map Prod.fst) content.data

/-- `extractJWTStrategy`. -/
def extractJWTStrategy (content : String) : SessionStorageR :=
  let maxAge := (maxAgeCapture content).getD 3600
  { strategy := "jwt"
    configuration :=
      { type := "jwt"
        httpOnly := some (hasSub content "httpOnly: true")
        secure := some (if hasSub content "secure:" then
            secureCapture content == some "true" else true)
        sameSite := some ((sameSiteCapture content).getD "lax")
        adapter := none, maxAge := none }
    lifetime := { accessToken := maxAge, session := some (maxAge * 24) } }

/-- `extractDatabaseStrategy`. -/
def extractDatabaseStrategy (content : String) : SessionStorageR :=
  { strategy := "database"
    configuration :=
      { type := "database"
        httpOnly := none, secure := none, sameSite := none
        adapter := some
          (if hasSub content "MongoDBAdapter" then "mongodb"
           else if hasSub content "FirestoreAdapter" then "firestore"
           else if hasSub content "PrismaAdapter" then "prisma"
           else "unknown")
        maxAge := none }
    lifetime := { accessToken := 3600, session := some 86400 } }

/-- `extractCookieStorage`. -/
def extractCookieStorage (f : SFile) : SessionStorageR :=
  let content := f.content
  let maxAge := (maxAgeCapture content).getD 3600
  { strategy := "cookie"
    configuration :=
      { type := "cookie"
        httpOnly := some (hasSub content "httpOnly: true")
        secure := some (if hasSub content "secure:" then
            secureCapture content == some "true" else true)
        sameSite := some ((sameSiteCapture content).getD "lax")
        adapter := none, maxAge := some maxAge }
    lifetime := { accessToken := maxAge, session := some maxAge } }

/-- `extractLocalStorage`. -/
def extractLocalStorage (_f : SFile) : SessionStorageR :=
  { strategy := "localStorage"
    configuration :=
      { type := "localStorage"
        httpOnly := none, secure := none, sameSite := none
        adapter := none, maxAge := none }
    lifetime := { accessToken := 3600, session := some 86400 } }

/-- The documented default when nothing matches. -/
def defaultSessionStorage : SessionStorageR :=
  { strategy := "jwt"
    configuration :=
      { type := "jwt", httpOnly := some true, secure := some true
        sameSite := some "lax", adapter := none, maxAge := none }
    lifetime := { accessToken := 3600, session := some 86400 } }

/-- The per-file strategy check of the next-auth file loop. -/
def sessionLoop : List SFile → Option SessionStorageR
  | [] => none
  | f :: rest =>
    if hasSub f.content "strategy: \"jwt\"" ||
       hasSub f.content "strategy: \x27jwt\x27" then
      some (extractJWTStrategy f.content)
    else if hasSub f.content "strategy: \"database\"" ||
            hasSub f.content "strategy: \x27database\x27" then
      some (extractDatabaseStrategy f.content)
    else sessionLoop rest

/-- `extractSessionStorage`: next-auth config files, then cookie calls,
then localStorage, then the documented default. -/
def extractSessionStorage (corpus : List SFile) : SessionStorageR :=
  match sessionLoop (corpus.filter (fun f => globNextAuthAny f.path)) with
  | some r => r
  | none =>
    match (corpus.filter (fun f => extOkTS f.path &&
        (hasSub f.content "Set-Cookie" || hasSub f.content "cookies.set" ||
         hasSub f.content "serialize"))).head? with
    | some f => extractCookieStorage f
    | none =>
      match (corpus.filter (fun f => extOkTS f.path &&
          (hasSub f.content "localStorage.setItem" &&
           (hasSub f.content "token" || hasSub f.content "session" ||
            hasSub f.content "user")))).head? with
      | some f => extractLocalStorage f
      | none => defaultSessionStorage

/-- The NextAuth-scenario file content of claim C6. -/
def c6content : String :=
  "const authOptions = \x7b session: \x7b strategy: \"jwt\" \x7d, providers: [GoogleProvider], callbacks: \x7b session: async (\x7bsession\x7d) => \x7b return session \x7d \x7d \x7d"

/-- The NextAuth-scenario corpus of claim C6. -/
def c6corpus : List SFile :=
  [⟨"app/api/[...nextauth]/route.ts", c6content⟩]

/-! ## Permission-check extractor (source: the expanded
permission-check-extractor module; the repository also carries an earlier
variant with a strict subset of the api-route prefilter keywords and of
the protection-type disjuncts — on every corpus used by the claims below
the two versions agree). -/

/-- Glob `**/*middleware*.{ts,tsx,js}`. -/
def globMiddlewareAny (path : String) : Bool :=
  hasSub (baseName path) "middleware" && extOkTS path

/-- Glob `**/middleware.{ts,tsx,js}`. -/
def globMiddlewareExact (path : String) : Bool :=
  baseName path == "middleware.ts" || baseName path == "middleware.tsx" ||
  baseName path == "middleware.js"

/-- Glob `**/api/**/*.{ts,tsx,js}`: some non-final segment is `api`. -/
def globApi (path : String) : Bool :=
  (pathSegs path).dropLast.any (fun s => s == "api") && extOkTS path

/-- Extension filter of the glob `**/*.{tsx,jsx}`. -/
def extOkTsxJsx (path : String) : Bool :=
  strEndsWith path ".tsx" || strEndsWith path ".jsx"

/-- Glob `**/app/**/page.{tsx,jsx}`. -/
def globAppPage (path : String) : Bool :=
  (pathSegs path).dropLast.any (fun s => s == "app") &&
  (baseName path == "page.tsx" || baseName path == "page.jsx")

/-- Glob `**/pages/**/*.{tsx,jsx}`. -/
def globPagesAny (path : String) : Bool :=
  (pathSegs path).dropLast.any (fun s => s == "pages") && extOkTsxJsx path

/-- The absolute file path after `filePath.replace(repoPath, "")`: a
leading slash plus the relative path.  The source's path regexes run on
the absolute path; its temp-dir prefix (`/tmp/auth-extract-...`) contains
none of the anchors `api/`, `app/`, `pages/`, so matching on the
slash-prefixed relative path is equivalent. -/
def absPath (path : String) : String := "/" ++ path

/-- `[^/]+(?:\/[^/]+)*`: a nonempty sequence of nonempty `/`-separated
segments. -/
def segSeqOk (cs : List Char) : Bool :=
  (splitCharAux '/' cs []).all (fun p => !p.isEmpty)

/-- Source regex `/api\/([^/]+(?:\/[^/]+)*)\/route/` at one position:
greedy, so the capture extends to the last `/route` that still leaves a
valid segment sequence before it. -/
def tryApiRouteAt (cs : List Char) : Option String :=
  match pLit "api/".data cs with
  | none => none
  | some rest =>
    (List.range (rest.length + 1)).reverse.findSome? (fun j =>
      if "/route".data.isPrefixOf (rest.drop j) && segSeqOk (rest.take j) then
        some (String.mk (rest.take j))
      else none)

/-- First match of the route-path regex over the whole path. -/
def apiRouteCapture (path : String) : Option String :=
  scanFirst tryApiRouteAt path.data

/-- Source regex shape `/ANCHOR(.+?)(?:STOP|$)/` at one position: the
lazy `.+?` takes the shortest nonempty capture followed by the stop
token, or the whole remainder when no stop token occurs (the `$`
alternative). -/
def tryLazyAfterAt (anchor stop : String) (cs : List Char) : Option String :=
  match pLit anchor.data cs with
  | none => none
  | some rest =>
    if rest.isEmpty then none
    else
      (List.range' 1 rest.length).findSome? (fun k =>
        if stop.data.isPrefixOf (rest.drop k) then some (String.mk (rest.take k))
        else if k = rest.length then some (String.mk rest)
        else none)

/-- Source regex `/api\/(.+?)(?:\/route|$)/` ("handle nested routes"). -/
def apiLazyCapture (path : String) : Option String :=
  scanFirst (tryLazyAfterAt "api/" "/route") path.data

/-- Source regex `/role\s*[=!]==\s*["'](\w+)["']/` (capture only);
also used with `permission` in place of `role`. -/
def eqIdiomCapture (kw : String) (content : String) : Option String :=
  scanFirst (fun cs =>
    match pLit kw.data cs with
    | none => none
    | some cs1 =>
      match pOneOf ['=', '!'] (pWs0 cs1) with
      | none => none
      | some cs2 =>
        match pLit "==".data cs2 with
        | none => none
        | some cs3 =>
          match pOneOf ['"', '\x27'] (pWs0 cs3) with
          | none => none
          | some cs4 =>
            match pWord1 cs4 with
            | none => none
            | some (w, cs5) =>
              match pOneOf ['"', '\x27'] cs5 with
              | none => none
              | some _ => some w) content.data

/-- An optional regex group `(?:KW\s+)?` (greedy with backtracking). -/
def withOptKw (kw : String) (k : List Char → Option α) (cs : List Char) :
    Option α :=
  match pLit kw.data cs with
  | some cs1 =>
    match pWs1 cs1 with
    | some cs2 => k cs2 <|> k cs
    | none => k cs
  | none => k cs

/-- Source regex
`/(?:export\s+)?(?:async\s+)?(?:function\s+)?middleware\s*\(([^)]*)\)\s*\{([\s\S]*?)\}/`
at one position; only its success matters here (the captured excerpt is
omitted), and the lazy `[\s\S]*?\}` succeeds exactly when some `}`
follows the opening brace. -/
def tryMiddlewareFnAt (cs : List Char) : Option Unit :=
  withOptKw "export" (withOptKw "async" (withOptKw "function" (fun cs0 =>
    match pLit "middleware".data cs0 with
    | none => none
    | some cs1 =>
      match pLit ['('] (pWs0 cs1) with
      | none => none
      | some cs2 =>
        let run := cs2.takeWhile (fun c => c ≠ ')')
        match cs2.drop run.length with
        | ')' :: cs3 =>
          match pLit ['{'] (pWs0 cs3) with
          | none => none
          | some cs4 => if cs4.any (fun c => c = '}') then some () else none
        | _ => none))) cs

/-- Source regex `/(?:export\s+)?(?:default\s+)?(?:function|const)\s+(\w+)/`. -/
def tryComponentNameAt (cs : List Char) : Option String :=
  withOptKw "export" (withOptKw "default" (fun cs0 =>
    match pAlt ["function", "const"] cs0 with
    | none => none
    | some cs1 =>
      match pWs1 cs1 with
      | none => none
      | some cs2 => (pWord1 cs2).map Prod.fst)) cs

/-- `MiddlewarePattern` (template and the constant `location` omitted). -/
structure MiddlewarePatternR where
  name : String
  type : String
  filePath : String
  checks : List String
deriving DecidableEq, Repr

/-- `ProtectedRoute` (implementation excerpt omitted). -/
structure ProtectedRouteR where
  path : String
  protection : String
  requiredRole : Option String
  requiredPermission : Option String
deriving DecidableEq, Repr

/-- `APIGuard` (middleware-name and template fields omitted — no claim
mentions them). -/
structure APIGuardR where
  endpoint : String
  method : String
  protection : String
  filePath : String
deriving DecidableEq, Repr

/-- `ComponentGuard` (template omitted). -/
structure ComponentGuardR where
  component : String
  protection : String
  requiredRole : Option String
  requiredPermission : Option String
  filePath : String
deriving DecidableEq, Repr

/-- The permission-check extractor's result record. -/
structure PermissionChecksR where
  middleware : List MiddlewarePatternR
  protectedRoutes : List ProtectedRouteR
  apiGuards : List APIGuardR
  componentGuards : Option (List ComponentGuardR)
deriving DecidableEq, Repr

/-- `extractMiddlewarePattern`. -/
def extractMiddlewarePattern (f : SFile) : Option MiddlewarePatternR :=
  match scanFirst tryMiddlewareFnAt f.content.data with
  | none => none
  | some _ =>
    some { name := "middleware", type := "global"
           filePath := absPath f.path
           checks :=
             (if hasSub f.content "authMiddleware" then ["auth"] else []) ++
             (if hasSub f.content "verifyToken" then ["token"] else []) ++
             (if hasSub f.content "checkRole" then ["role"] else []) ++
             (if hasSub f.content "checkPermission" then ["permission"] else []) }

/-- The endpoint/path computation shared by `extractAPIGuard` and
`extractProtectedRoute` (route regex, then the nested-route fallback,
else the stripped file path). -/
def apiEndpointOf (f : SFile) : String :=
  let filePath := absPath f.path
  let endpoint0 :=
    match apiRouteCapture filePath with
    | some cap => "/api/" ++ cap
    | none => filePath
  if strStartsWith endpoint0 "/api/" then endpoint0
  else
    match apiLazyCapture filePath with
    | some cap => "/api/" ++ cap
    | none => endpoint0

/-- The HTTP-method detection chain of `extractAPIGuard`. -/
def apiMethodOf (content : String) : String :=
  if hasSub content "export async function GET" then "GET"
  else if hasSub content "export async function POST" then "POST"
  else if hasSub content "export async function PUT" then "PUT"
  else if hasSub content "export async function PATCH" then "PATCH"
  else if hasSub content "export async function DELETE" then "DELETE"
  else "GET"

/-- The protection-type chain shared by `extractAPIGuard` and
`extractProtectedRoute` (the expanded variant). -/
def apiProtectionOf (content : String) : String :=
  if hasSub content "checkRole" || hasSub content "role" ||
     hasSub content "admin" then "role"
  else if hasSub content "checkPermission" || hasSub content "permission" then
    "permission"
  else if hasSub content "authMiddleware" || hasSub content "verifyToken" ||
          (hasSub content "cookies.get" &&
            (hasSub content "it" || hasSub content "idToken" ||
             hasSub content "at")) ||
          hasSub content "No authentication token" ||
          hasSub content "Authentication required" ||
          hasSub content "status: 401" then "auth"
  else "custom"

/-- `extractAPIGuard` (never null in the source). -/
def extractAPIGuard (f : SFile) : APIGuardR :=
  { endpoint := apiEndpointOf f
    method := apiMethodOf f.content
    protection := apiProtectionOf f.content
    filePath := absPath f.path }

/-- `extractProtectedRoute` (never null in the source). -/
def extractProtectedRoute (f : SFile) : ProtectedRouteR :=
  let content := f.content
  if hasSub content "checkRole" || hasSub content "role" ||
     hasSub content "admin" then
    { path := apiEndpointOf f, protection := "role"
      requiredRole := eqIdiomCapture "role" content
      requiredPermission := none }
  else if hasSub content "checkPermission" || hasSub content "permission" then
    { path := apiEndpointOf f, protection := "permission"
      requiredRole := none
      requiredPermission := eqIdiomCapture "permission" content }
  else if hasSub content "authMiddleware" || hasSub content "verifyToken" ||
          (hasSub content "cookies.get" &&
            (hasSub content "it" || hasSub content "idToken" ||
             hasSub content "at")) ||
          hasSub content "No authentication token" ||
          hasSub content "Authentication required" ||
          hasSub content "status: 401" then
    { path := apiEndpointOf f, protection := "auth"
      requiredRole := none, requiredPermission := none }
  else
    { path := apiEndpointOf f, protection := "custom"
      requiredRole := none, requiredPermission := none }

/-- `extractComponentGuard` (never null in the source; when neither the
role- nor permission-equality test fires, the initial `auth` value is
kept whether or not the final else-if condition holds). -/
def extractComponentGuard (f : SFile) : ComponentGuardR :=
  let content := f.content
  let component := (scanFirst tryComponentNameAt content.data).getD "Component"
  if hasSub content "role" && (hasSub content "===" || hasSub content "!==") then
    { component := component, protection := "role"
      requiredRole := eqIdiomCapture "role" content
      requiredPermission := none, filePath := absPath f.path }
  else if hasSub content "permission" &&
          (hasSub content "===" || hasSub content "!==") then
    { component := component, protection := "permission"
      requiredRole := none
      requiredPermission := eqIdiomCapture "permission" content
      filePath := absPath f.path }
  else
    { component := component, protection := "auth"
      requiredRole := none, requiredPermission := none
      filePath := absPath f.path }

/-- `extractPageRouteProtection` (never null in the source). -/
def extractPageRouteProtection (f : SFile) : ProtectedRouteR :=
  let content := f.content
  let p0 := absPath f.path
  let routePath :=
    if hasSub p0 "/app/" then
      match scanFirst (tryLazyAfterAt "app/" "/page") p0.data with
      | some cap => "/" ++ cap
      | none => p0
    else if hasSub p0 "/pages/" then
      match scanFirst (tryLazyAfterAt "pages/" "/index") p0.data with
      | some cap => "/" ++ cap
      | none => p0
    else p0
  if hasSub content "useAuth" || hasSub content "isAuthenticated" ||
     (hasSub content "router" && hasSub content "push" &&
       (hasSub content "signin" || hasSub content "login")) then
    { path := routePath, protection := "auth"
      requiredRole := none, requiredPermission := none }
  else if hasSub content "role" then
    { path := routePath, protection := "role"
      requiredRole := eqIdiomCapture "role" content
      requiredPermission := none }
  else if hasSub content "permission" then
    { path := routePath, protection := "permission"
      requiredRole := none
      requiredPermission := eqIdiomCapture "permission" content }
  else
    { path := routePath, protection := "custom"
      requiredRole := none, requiredPermission := none }

/-- The api-route prefilter of the expanded permission-check extractor. -/
def apiPrefilter (content : String) : Bool :=
  hasSub content "authMiddleware" || hasSub content "requireAuth" ||
  hasSub content "checkAuth" || hasSub content "verifyToken" ||
  hasSub content "unauthorized" || hasSub content "Unauthorized" ||
  (hasSub content "cookies.get" &&
    (hasSub content "it" || hasSub content "idToken" ||
     hasSub content "access_token" || hasSub content "at")) ||
  hasSub content "status: 401" || hasSub content "status:401" ||
  hasSub content "statusCode: 401" ||
  hasSub content "No authentication token" ||
  hasSub content "Authentication required" ||
  hasSub content "JWT" || hasSub content "jwt" ||
  hasSub content "idToken" || hasSub content "id_token"

/-- The component-file content filter. -/
def componentFilter (content : String) : Bool :=
  hasSub content "useAuth" || hasSub content "useSession" ||
  hasSub content "isAuthenticated" || hasSub content "requireAuth" ||
  hasSub content "checkAuth" ||
  (hasSub content "router.push" &&
    (hasSub content "signin" || hasSub content "login")) ||
  (hasSub content "useRouter" && hasSub content "push")

/-- The page-file content filter. -/
def pageFilter (content : String) : Bool :=
  hasSub content "useAuth" || hasSub content "isAuthenticated" ||
  (hasSub content "router" && hasSub content "push" &&
    (hasSub content "signin" || hasSub content "login"))

/-- The middleware file population (two concatenated globs, as in the
source — duplicates are possible and preserved). -/
def middlewareFiles (corpus : List SFile) : List SFile :=
  corpus.filter (fun f => globMiddlewareAny f.path) ++
  corpus.filter (fun f => globMiddlewareExact f.path)

/-- The api-route file population. -/
def apiRouteFiles (corpus : List SFile) : List SFile :=
  corpus.filter (fun f => globApi f.path && !(hasSub f.path "node_modules"))

/-- `extractPermissionChecks`. -/
def extractPermissionChecks (corpus : List SFile) : PermissionChecksR :=
  let middleware := (middlewareFiles corpus).filterMap extractMiddlewarePattern
  let apiFiles := (apiRouteFiles corpus).filter (fun f => apiPrefilter f.content)
  let apiGuards := apiFiles.map extractAPIGuard
  let apiRoutes := apiFiles.map extractProtectedRoute
  let componentGuards :=
    ((corpus.filter (fun f =>
        extOkTsxJsx f.path && componentFilter f.content)).take 20).map
      extractComponentGuard
  let pageRoutes :=
    (((corpus.filter (fun f => globAppPage f.path) ++
       corpus.filter (fun f => globPagesAny f.path)).filter (fun f =>
        pageFilter f.content)).take 10).map extractPageRouteProtection
  { middleware := middleware
    protectedRoutes := apiRoutes ++ pageRoutes
    apiGuards := apiGuards
    componentGuards :=
      if componentGuards.isEmpty then none else some componentGuards }

/-! ## Full extraction pipeline (source: `extractAuthSystem`)

The framework-detection block (extractor.ts lines 15-27) reads the
repository's root `package.json` and feeds it to the JS builtin
`JSON.parse`, whose `SyntaxError` on malformed content propagates out of
`extractAuthSystem` unguarded.  The builtin is embedded below as an
executable recursive-descent parser of the JSON grammar (`jsonParse`);
lone-surrogate `\uXXXX` escapes, which a JS string can hold but a Lean
`Char` cannot, are the one place the embedding diverges from the builtin,
and no claim touches them. -/

/-- JSON values as produced by `JSON.parse`.  A number keeps its source
lexeme: its only use downstream is the truthiness test of
`packageJson.dependencies?.['next']`, which needs just zero-ness. -/
inductive JsonV where
  | jnull : JsonV
  | jbool : Bool → JsonV
  | jnum : String → JsonV
  | jstr : String → JsonV
  | jarr : List JsonV → JsonV
  | jobj : List (String × JsonV) → JsonV

/-- JSON insignificant whitespace. -/
def jsonSkipWs (cs : List Char) : List Char :=
  cs.dropWhile (fun c => c == ' ' || c == '\t' || c == '\n' || c == '\r')

/-- Value of one hexadecimal digit. -/
def hexVal (c : Char) : Option Nat :=
  if c.isDigit then some (c.toNat - 48)
  else if 'a' ≤ c ∧ c ≤ 'f' then some (c.toNat - 87)
  else if 'A' ≤ c ∧ c ≤ 'F' then some (c.toNat - 55)
  else none

/-- The character named by a JSON single-character escape. -/
def jsonEscChar : Char → Option Char
  | '"' => some '"'
  | '\\' => some '\\'
  | '/' => some '/'
  | 'b' => some (Char.ofNat 8)
  | 'f' => some (Char.ofNat 12)
  | 'n' => some '\n'
  | 'r' => some '\r'
  | 't' => some '\t'
  | _ => none

/-- Body of a JSON string, after the opening quote: escapes are decoded;
an unescaped control character, a bad escape or a missing closing quote
rejects, as `JSON.parse` does. -/
def parseJStr : List Char → List Char → Option (String × List Char)
  | [], _ => none
  | '"' :: t, acc => some (String.mk acc.reverse, t)
  | '\\' :: 'u' :: h1 :: h2 :: h3 :: h4 :: t, acc =>
    match hexVal h1, hexVal h2, hexVal h3, hexVal h4 with
    | some a, some b, some c, some d =>
      parseJStr t (Char.ofNat (((a * 16 + b) * 16 + c) * 16 + d) :: acc)
    | _, _, _, _ => none
  | '\\' :: e :: t, acc =>
    match jsonEscChar e with
    | some c => parseJStr t (c :: acc)
    | none => none
  | c :: t, acc => if c.toNat < 32 then none else parseJStr t (c :: acc)

/-- Exponent part of a JSON number (optional). -/
def parseJNumExp (acc : List Char) (cs : List Char) :
    Option (String × List Char) :=
  match cs with
  | c :: t =>
    if c == 'e' || c == 'E' then
      let st : List Char × List Char :=
        match t with
        | '+' :: r => (['+'], r)
        | '-' :: r => (['-'], r)
        | _ => ([], t)
      let ds := st.2.takeWhile Char.isDigit
      if ds.isEmpty then none
      else some (String.mk (acc ++ c :: st.1 ++ ds), st.2.drop ds.length)
    else some (String.mk acc, cs)
  | [] => some (String.mk acc, [])

/-- Fraction part of a JSON number (optional), then the exponent. -/
def parseJNumFrac (acc : List Char) (cs : List Char) :
    Option (String × List Char) :=
  match cs with
  | '.' :: t =>
    let ds := t.takeWhile Char.isDigit
    if ds.isEmpty then none
    else parseJNumExp (acc ++ '.' :: ds) (t.drop ds.length)
  | _ => parseJNumExp acc cs

/-- A JSON number `-? (0 | [1-9][0-9]*) (\. [0-9]+)? ([eE][+-]?[0-9]+)?`;
the lexeme is kept.  A digit directly after a leading `0` is left
unconsumed: no JSON context lets a digit follow a complete number, so the
follow-set check of the caller rejects `01` exactly as `JSON.parse`
does. -/
def parseJNum (cs : List Char) : Option (String × List Char) :=
  let ns : List Char × List Char :=
    match cs with
    | '-' :: t => (['-'], t)
    | _ => ([], cs)
  match ns.2 with
  | c :: t =>
    if c == '0' then parseJNumFrac (ns.1 ++ ['0']) t
    else if c.isDigit then
      let ds := t.takeWhile Char.isDigit
      parseJNumFrac (ns.1 ++ c :: ds) (t.drop ds.length)
    else none
  | [] => none

/-- State of the JSON recursive-descent parser: a value, the members of
an object whose opening brace is already consumed, or the elements of an
array whose opening bracket is already consumed. -/
inductive JMode where
  | val : JMode
  | members : List (String × JsonV) → JMode
  | elems : List JsonV → JMode

/-- The grammar of `JSON.parse` (`parseJ fuel .val` parses one value
after optional whitespace).  Fuel only enforces termination: every mode
switch follows at least one consumed character, so the `2 * length + 8`
budget of `jsonParse` is never exhausted on a path that could accept. -/
def parseJ : Nat → JMode → List Char → Option (JsonV × List Char)
  | 0, _, _ => none
  | fuel + 1, .val, cs0 =>
    match jsonSkipWs cs0 with
    | '\x7b' :: t =>
      match jsonSkipWs t with
      | '\x7d' :: r => some (.jobj [], r)
      | _ => parseJ fuel (.members []) t
    | '[' :: t =>
      match jsonSkipWs t with
      | ']' :: r => some (.jarr [], r)
      | _ => parseJ fuel (.elems []) t
    | '"' :: t =>
      match parseJStr t [] with
      | some (s, r) => some (.jstr s, r)
      | none => none
    | cs =>
      match pLit "true".data cs with
      | some r => some (.jbool true, r)
      | none =>
        match pLit "false".data cs with
        | some r => some (.jbool false, r)
        | none =>
          match pLit "null".data cs with
          | some r => some (.jnull, r)
          | none =>
            match parseJNum cs with
            | some (lex, r) => some (.jnum lex, r)
            | none => none
  | fuel + 1, .members acc, cs0 =>
    match jsonSkipWs cs0 with
    | '"' :: t =>
      match parseJStr t [] with
      | none => none
      | some (k, cs2) =>
        match jsonSkipWs cs2 with
        | ':' :: cs3 =>
          match parseJ fuel .val cs3 with
          | none => none
          | some (v, cs4) =>
            match jsonSkipWs cs4 with
            | ',' :: cs5 => parseJ fuel (.members (acc ++ [(k, v)])) cs5
            | '\x7d' :: cs5 => some (.jobj (acc ++ [(k, v)]), cs5)
            | _ => none
        | _ => none
    | _ => none
  | fuel + 1, .elems acc, cs0 =>
    match parseJ fuel .val cs0 with
    | none => none
    | some (v, cs2) =>
      match jsonSkipWs cs2 with
      | ',' :: cs3 => parseJ fuel (.elems (acc ++ [v])) cs3
      | ']' :: cs3 => some (.jarr (acc ++ [v]), cs3)
      | _ => none

/-- The JS builtin `JSON.parse`: one value, then nothing but trailing
whitespace.  `none` models the thrown `SyntaxError`. -/
def jsonParse (s : String) : Option JsonV :=
  match parseJ (2 * s.data.length + 8) JMode.val s.data with
  | some (v, rest) => if (jsonSkipWs rest).isEmpty then some v else none
  | none => none

/-- Property lookup on a parsed JSON object: `JSON.parse` builds the JS
object left to right, so a duplicated key keeps its last value. -/
def jlookup (fields : List (String × JsonV)) (k : String) : Option JsonV :=
  (fields.reverse.find? (fun p => p.1 == k)).map (fun p => p.2)

/-- JS property access `v[k]` as the optional chain uses it: on a
non-object (primitive or array) these keys are absent, so the access
yields `undefined` (`none`). -/
def jGet (v : JsonV) (k : String) : Option JsonV :=
  match v with
  | .jobj fields => jlookup fields k
  | _ => none

/-- Whether a JSON number lexeme denotes zero: every mantissa digit is 0
(an exponent cannot make a nonzero mantissa zero). -/
def numLexIsZero (lex : String) : Bool :=
  ((lex.data.takeWhile (fun c => !(c == 'e' || c == 'E'))).filter
      (fun c => c.isDigit)).all (fun c => c == '0')

/-- JS truthiness of a JSON value (`undefined` is handled by the
callers): `null`, `false`, `0` and the empty string are falsy, everything
else truthy. -/
def jsTruthy : JsonV → Bool
  | .jnull => false
  | .jbool b => b
  | .jnum lex => !(numLexIsZero lex)
  | .jstr s => !s.data.isEmpty
  | .jarr _ => true
  | .jobj _ => true

/-- Truthiness of `packageJson.dependencies?.[k]`: the optional chain
yields `undefined` when `dependencies` is absent or null, or has no such
key. -/
def depTruthy (packageJson : JsonV) (k : String) : Bool :=
  match jGet packageJson "dependencies" with
  | none => false
  | some deps =>
    match jGet deps k with
    | none => false
    | some v => jsTruthy v

/-- The `if / else if` framework chain of extractor.ts lines 20-26. -/
def detectFramework (packageJson : JsonV) : String :=
  if depTruthy packageJson "next" then "nextjs"
  else if depTruthy packageJson "react" then "react"
  else if depTruthy packageJson "express" then "express"
  else "unknown"

/-- JS `repoPath.split('/').pop() || 'unknown'` (the `||` takes the
default on the falsy empty string). -/
def projectNameOf (repoPath : String) : String :=
  let pn := ((jsSplit '/' repoPath).reverse.head?).getD ""
  if pn.data.isEmpty then "unknown" else pn

/-- The pure metadata fields; `extractedAt` is an impure timestamp and
`sourcePath` echoes the input, both omitted. -/
structure MetadataR where
  projectName : String
  framework : String
deriving DecidableEq, Repr

/-- The framework-detection block applied to the root `package.json`
file, when present (`existsSync(join(repoPath, 'package.json'))` is true
exactly when the corpus holds a file at the root-relative path
`package.json`); `JSON.parse`'s `SyntaxError` on malformed content
propagates as the error case. -/
def frameworkDetect1 : Option SFile → Except String String
  | none => .ok "unknown"
  | some pj =>
    match jsonParse pj.content with
    | none =>
      .error ("SyntaxError: invalid JSON in package.json: " ++ pj.content)
    | some packageJson => .ok (detectFramework packageJson)

/-- The detected framework of a corpus. -/
def frameworkDetect (corpus : List SFile) : Except String String :=
  frameworkDetect1 (corpus.find? (fun f => f.path == "package.json"))

/-- The canonical record assembled by `extractAuthSystem` (display-only
`utilities` and `instructions` omitted). -/
structure AuthMemoryR where
  metadata : MetadataR
  authProvider : AuthProviderR
  sessionStorage : SessionStorageR
  tokenStrategy : TokenStrategyR
  roleModel : RoleModelR
  permissionChecks : PermissionChecksR
deriving DecidableEq, Repr

/-- `extractAuthSystem`: the filesystem is modelled by the flag
`repoExists` (the `existsSync(repoPath)` check) plus the corpus of files
under the repository root; a missing path throws before any extractor
runs, and a malformed root `package.json` throws inside framework
detection, before the category extractors run. -/
def extractAuthSystem (repoExists : Bool) (repoPath : String)
    (corpus : List SFile) : Except String AuthMemoryR :=
  if !repoExists then
    .error ("Repository path does not exist: " ++ repoPath)
  else
    match frameworkDetect corpus with
    | .error e => .error e
    | .ok framework =>
      .ok { metadata := { projectName := projectNameOf repoPath,
                          framework := framework }
            authProvider := extractAuthProvider corpus
            sessionStorage := extractSessionStorage corpus
            tokenStrategy := extractTokenStrategy corpus
            roleModel := extractRoleModel corpus
            permissionChecks := extractPermissionChecks corpus }

/-- Generated helper `isProtectedRoute(path)`:
`protectedRoutes.some(route => route.path === path)`. -/
def isProtectedRoute (m : AuthMemoryR) (p : String) : Bool :=
  m.permissionChecks.protectedRoutes.any (fun r => r.path == p)

/-- Generated helper `getRequiredRole(path)`:
`protectedRoutes.find(r => r.path === path)?.requiredRole`. -/
def getRequiredRole (m : AuthMemoryR) (p : String) : Option String :=
  (m.permissionChecks.protectedRoutes.find? (fun r => r.path == p)).bind
    (fun r => r.requiredRole)

/-- Generated helper `getRequiredPermission(path)`. -/
def getRequiredPermission (m : AuthMemoryR) (p : String) : Option String :=
  (m.permissionChecks.protectedRoutes.find? (fun r => r.path == p)).bind
    (fun r => r.requiredPermission)

/-- A concrete record for the C10 witness: two protected routes share the
path `/a`, with different required roles. -/
def c10memory : AuthMemoryR :=
  { metadata := { projectName := "repo", framework := "unknown" }
    authProvider := unknownProviderResult
    sessionStorage := defaultSessionStorage
    tokenStrategy :=
      { accessToken := { lifetime := 3600, storage := "httpOnly",
                         httpOnly := none, secure := none, sameSite := none }
        refreshToken := none
        refreshStrategy := { type := "none", trigger := "on-demand",
                             interval := none } }
    roleModel := { roles := [], permissions := [], hierarchy := none }
    permissionChecks :=
      { middleware := []
        protectedRoutes :=
          [{ path := "/a", protection := "role",
             requiredRole := some "admin", requiredPermission := none },
           { path := "/a", protection := "role",
             requiredRole := some "boss", requiredPermission := none }]
        apiGuards := [], componentGuards := none } }

/-! ## Theorems -/

section Dedup

variable {α : Type} (key : α → String)

theorem jsMapValuesBy_append_one (l : List α) (x : α) :
    jsMapValuesBy key (l ++ [x]) = mapSetStep key (jsMapValuesBy key l) x := by
  simp [jsMapValuesBy, mapSetStep, List.foldl_append]

theorem map_key_upd (x : α) (acc : List α) :
    (acc.map (fun y => if key y == key x then x else y)).map key =
      acc.map key := by
  rw [List.map_map]
  apply List.map_congr_left
  intro a _
  by_cases h : key a = key x
  · simp [h]
  · simp [h]

theorem any_key_iff (x : α) (acc : List α) :
    (acc.any (fun y => key y == key x) = true) ↔ key x ∈ acc.map key := by
  simp only [List.any_eq_true, beq_iff_eq, List.mem_map]

theorem mem_keys_jsMapValuesBy (l : List α) (n : String) :
    n ∈ (jsMapValuesBy key l).map key ↔ n ∈ l.map key := by
  induction l using List.reverseRecOn with
  | nil => simp [jsMapValuesBy]
  | append_singleton l x ih =>
    rw [jsMapValuesBy_append_one]
    unfold mapSetStep
    by_cases h : (jsMapValuesBy key l).any (fun y => key y == key x) = true
    · rw [if_pos h, map_key_upd, List.map_append, List.mem_append]
      have hx : key x ∈ (jsMapValuesBy key l).map key := (any_key_iff key x _).mp h
      constructor
      · intro hn
        exact Or.inl (ih.mp hn)
      · rintro (hn | hn)
        · exact ih.mpr hn
        · simp only [List.map_singleton, List.mem_singleton] at hn
          rw [hn]
          exact hx
    · rw [if_neg h, List.map_append, List.map_append, List.mem_append,
        List.mem_append]
      exact or_congr ih Iff.rfl

theorem find_last_jsMapValuesBy (l : List α) :
    ∀ r ∈ jsMapValuesBy key l,
      l.reverse.find? (fun c => key c == key r) = some r := by
  induction l using List.reverseRecOn with
  | nil => simp [jsMapValuesBy]
  | append_singleton l x ih =>
    rw [jsMapValuesBy_append_one]
    unfold mapSetStep
    by_cases h : (jsMapValuesBy key l).any (fun y => key y == key x) = true
    · rw [if_pos h]
      intro r hr
      rcases List.mem_map.mp hr with ⟨z, hz, rfl⟩
      rw [List.reverse_append, List.reverse_singleton, List.singleton_append,
        List.find?_cons]
      by_cases hzx : key z = key x
      · have hb : (key z == key x) = true := beq_iff_eq.mpr hzx
        simp only [hb, if_true]
        have hpred : (key x == key x) = true := beq_iff_eq.mpr rfl
        simp [hpred]
      · have hb : (key z == key x) = false := beq_eq_false_iff_ne.mpr hzx
        simp only [hb, Bool.false_eq_true, if_false]
        have hpred : (key x == key z) = false :=
          beq_eq_false_iff_ne.mpr (fun hc => hzx hc.symm)
        simp only [hpred]
        exact ih z hz
    · rw [if_neg h]
      intro r hr
      rw [List.reverse_append, List.reverse_singleton, List.singleton_append,
        List.find?_cons]
      rcases List.mem_append.mp hr with hr' | hr'
      · have hkr : key r ≠ key x := by
          intro hc
          apply h
          rw [List.any_eq_true]
          exact ⟨r, hr', beq_iff_eq.mpr hc⟩
        have hpred : (key x == key r) = false :=
          beq_eq_false_iff_ne.mpr (fun hc => hkr hc.symm)
        simp only [hpred]
        exact ih r hr'
      · simp only [List.mem_singleton] at hr'
        subst hr'
        simp [beq_self_eq_true]

theorem indexOf_append_left {a : String} {l₁ l₂ : List String}
    (h : a ∈ l₁) : (l₁ ++ l₂).indexOf a = l₁.indexOf a := by
  induction l₁ with
  | nil => cases h
  | cons b t ih =>
    rw [List.cons_append, List.indexOf_cons, List.indexOf_cons]
    by_cases hba : b = a
    · simp [hba]
    · have hb : (b == a) = false := by simp [hba]
      simp only [hb, cond_false]
      have : a ∈ t := by
        rcases List.mem_cons.mp h with h' | h'
        · exact absurd h'.symm hba
        · exact h'
      rw [ih this]

theorem indexOf_append_self {a : String} {l₁ : List String}
    (h : a ∉ l₁) : (l₁ ++ [a]).indexOf a = l₁.length := by
  induction l₁ with
  | nil => simp [List.indexOf_cons]
  | cons b t ih =>
    have hba : b ≠ a := fun hc => h (hc ▸ List.mem_cons_self b t)
    have hb : (b == a) = false := by simp [hba]
    rw [List.cons_append, List.indexOf_cons]
    simp only [hb, cond_false, List.length_cons]
    rw [ih (fun hc => h (List.mem_cons_of_mem b hc))]

theorem pairwise_firstSeen_jsMapValuesBy (l : List α) :
    (jsMapValuesBy key l).Pairwise (fun a b =>
      (l.map key).indexOf (key a) < (l.map key).indexOf (key b)) := by
  induction l using List.reverseRecOn with
  | nil => simp [jsMapValuesBy]
  | append_singleton l x ih =>
    rw [jsMapValuesBy_append_one]
    unfold mapSetStep
    have hkeys : ∀ a, a ∈ jsMapValuesBy key l → key a ∈ l.map key := by
      intro a ha
      exact (mem_keys_jsMapValuesBy key l (key a)).mp
        (List.mem_map.mpr ⟨a, ha, rfl⟩)
    have hidx : ∀ a, a ∈ jsMapValuesBy key l →
        ((l ++ [x]).map key).indexOf (key a) = (l.map key).indexOf (key a) := by
      intro a ha
      rw [List.map_append]
      exact indexOf_append_left (hkeys a ha)
    by_cases h : (jsMapValuesBy key l).any (fun y => key y == key x) = true
    · rw [if_pos h]
      rw [List.pairwise_map]
      apply List.Pairwise.imp_of_mem _ ih
      intro a b ha hb hlt
      have hka : key (if key a == key x then x else a) = key a := by
        by_cases hax : key a = key x
        · simp [hax]
        · simp [hax]
      have hkb : key (if key b == key x then x else b) = key b := by
        by_cases hbx : key b = key x
        · simp [hbx]
        · simp [hbx]
      rw [hka, hkb, hidx a ha, hidx b hb]
      exact hlt
    · rw [if_neg h]
      rw [List.pairwise_append]
      refine ⟨List.Pairwise.imp_of_mem ?_ ih, List.pairwise_singleton _ _, ?_⟩
      · intro a b ha hb hlt
        rw [hidx a ha, hidx b hb]
        exact hlt
      · intro a ha b hb
        rcases List.mem_singleton.mp hb with rfl
        have hxnot : key b ∉ l.map key := by
          intro hc
          apply h
          rw [any_key_iff]
          rw [mem_keys_jsMapValuesBy]
          exact hc
        have h1 : ((l ++ [b]).map key).indexOf (key a) <
            (l.map key).length := by
          rw [hidx a ha]
          exact List.indexOf_lt_length.mpr (hkeys a ha)
        have h2 : ((l ++ [b]).map key).indexOf (key b) =
            (l.map key).length := by
          rw [List.map_append, List.map_singleton]
          exact indexOf_append_self hxnot
        rw [h2]
        exact h1

theorem nodup_keys_jsMapValuesBy (l : List α) :
    ((jsMapValuesBy key l).map key).Nodup := by
  have hp := pairwise_firstSeen_jsMapValuesBy key l
  have hne : (jsMapValuesBy key l).Pairwise (fun a b => key a ≠ key b) := by
    apply hp.imp
    intro a b hlt heq
    rw [heq] at hlt
    exact lt_irrefl _ hlt
  exact List.pairwise_map.mpr hne

theorem length_jsMapValuesBy (l : List α) :
    (jsMapValuesBy key l).length = (l.map key).toFinset.card := by
  have h1 : (jsMapValuesBy key l).length =
      ((jsMapValuesBy key l).map key).length := (List.length_map _ _).symm
  have h2 : ((jsMapValuesBy key l).map key).toFinset.card =
      ((jsMapValuesBy key l).map key).length :=
    List.toFinset_card_of_nodup (nodup_keys_jsMapValuesBy key l)
  have h3 : ((jsMapValuesBy key l).map key).toFinset =
      (l.map key).toFinset := by
    apply Finset.ext
    intro a
    rw [List.mem_toFinset, List.mem_toFinset]
    exact mem_keys_jsMapValuesBy key l a
  rw [h1, ← h2, h3]

end Dedup

/-- Claim C1: over any corpus, the role-model extractor's returned roles
and permissions lists are deduplicated by name with first-seen-position,
last-value-wins semantics: the output length equals the number of distinct
names among the candidates gathered across files, each output entry equals
the last candidate with its name in file-enumeration order, and output
entries are ordered by the position of each name's first candidate. -/
theorem c1_role_permission_dedup (corpus : List SFile) :
    ((extractRoleModel corpus).roles.length =
      ((gatherRoles corpus).map RoleDefinition.name).toFinset.card ∧
     (∀ r ∈ (extractRoleModel corpus).roles,
       (gatherRoles corpus).reverse.find?
         (fun c => c.name == r.name) = some r) ∧
     (extractRoleModel corpus).roles.Pairwise (fun a b =>
       ((gatherRoles corpus).map RoleDefinition.name).indexOf a.name <
       ((gatherRoles corpus).map RoleDefinition.name).indexOf b.name)) ∧
    ((extractRoleModel corpus).permissions.length =
      ((gatherPermissions corpus).map PermissionDefinition.name).toFinset.card ∧
     (∀ p ∈ (extractRoleModel corpus).permissions,
       (gatherPermissions corpus).reverse.find?
         (fun c => c.name == p.name) = some p) ∧
     (extractRoleModel corpus).permissions.Pairwise (fun a b =>
       ((gatherPermissions corpus).map PermissionDefinition.name).indexOf a.name <
       ((gatherPermissions corpus).map PermissionDefinition.name).indexOf b.name)) := by
  refine ⟨⟨?_, ?_, ?_⟩, ?_, ?_, ?_⟩
  · exact length_jsMapValuesBy RoleDefinition.name (gatherRoles corpus)
  · exact find_last_jsMapValuesBy RoleDefinition.name (gatherRoles corpus)
  · exact pairwise_firstSeen_jsMapValuesBy RoleDefinition.name (gatherRoles corpus)
  · exact length_jsMapValuesBy PermissionDefinition.name (gatherPermissions corpus)
  · exact find_last_jsMapValuesBy PermissionDefinition.name (gatherPermissions corpus)
  · exact pairwise_firstSeen_jsMapValuesBy PermissionDefinition.name
      (gatherPermissions corpus)

/-- Witness for C1 at a concrete corpus whose one file yields the
candidate roles `a, b, a`: the deduplicated output has two entries and
the last-occurrence lookup for `a` returns the last candidate. -/
theorem c1_role_permission_dedup_witness :
    (extractRoleModel [⟨"src/r.ts", "const roles = [\"a\", \"b\", \"a\"]"⟩]).roles.length =
      ((gatherRoles [⟨"src/r.ts", "const roles = [\"a\", \"b\", \"a\"]"⟩]).map
        RoleDefinition.name).toFinset.card ∧
    (gatherRoles [⟨"src/r.ts", "const roles = [\"a\", \"b\", \"a\"]"⟩]).reverse.find?
      (fun c => c.name == "a") = some ⟨"a", []⟩ :=
  ⟨(c1_role_permission_dedup [⟨"src/r.ts", "const roles = [\"a\", \"b\", \"a\"]"⟩]).1.1,
   (c1_role_permission_dedup
      [⟨"src/r.ts", "const roles = [\"a\", \"b\", \"a\"]"⟩]).1.2.1
     ⟨"a", []⟩ (by decide)⟩

/-- Claim C4 (code bug): the source's level table does contain
`guest ↦ 0`, but the truthiness guard `if (levelMap[...])` drops the
falsy value `0`, so a role list containing only `guest` produces no
hierarchy at all (the claim requires a hierarchy mapping guest to 0). -/
theorem c4_guest_level_dropped :
    levelMap.lookup "guest" = some 0 ∧
    extractHierarchy [⟨"guest", []⟩] = none ∧
    (extractRoleModel [⟨"src/a.ts", "x role === \"guest\" x"⟩]).hierarchy = none ∧
    (extractRoleModel [⟨"src/a.ts", "x role === \"guest\" x"⟩]).roles =
      [⟨"guest", []⟩] := by
  refine ⟨by decide, by decide, by decide, by decide⟩

/-- Claim C7 (code bug): on
`const roles = { admin: ["read","write"], viewer: ["read"] }` the
extractor splits the object body at every comma, so the `admin` entry is
cut inside its two-element permission array and discarded; only
`viewer` survives, and the derived hierarchy is `{viewer: 1}` instead of
the claimed two roles with `{admin: 3, viewer: 1}`. -/
theorem c7_role_object_literal_eval :
    extractRoleModel
        [⟨"src/roles.ts",
          "const roles = \x7b admin: [\"read\",\"write\"], viewer: [\"read\"] \x7d"⟩] =
      { roles := [⟨"viewer", ["read"]⟩]
        permissions := []
        hierarchy := some ⟨[("viewer", 1)]⟩ } := by
  decide

theorem flatScan_append (fetch : String → FetchOutcome)
    (l1 l2 : List (String × String)) (errs : List String) :
    flatScan fetch (l1 ++ l2) errs =
      match flatScan fetch l1 errs with
      | (some c, e) => (some c, e)
      | (none, e) => flatScan fetch l2 e := by
  induction l1 generalizing errs with
  | nil => simp [flatScan]
  | cons c rest ih =>
    cases h : attemptError fetch c.1 c.2 with
    | some e =>
      simp only [List.cons_append, flatScan, h]
      exact ih (errs ++ [e])
    | none =>
      simp only [List.cons_append, flatScan, h]

theorem tryFormats_eq_flatScan (fetch : String → FetchOutcome) (b : String)
    (urls : List String) (errs : List String) :
    flatScan fetch (urls.map (fun u => (b, u))) errs =
      match tryFormats fetch b urls errs with
      | (some u, e) => (some (b, u), e)
      | (none, e) => (none, e) := by
  induction urls generalizing errs with
  | nil => simp [flatScan, tryFormats]
  | cons u rest ih =>
    cases h : attemptError fetch b u with
    | some e =>
      simp only [List.map_cons, flatScan, tryFormats, h]
      exact ih (errs ++ [e])
    | none =>
      simp only [List.map_cons, flatScan, tryFormats, h]

theorem tryBranches_eq_flatScan (fetch : String → FetchOutcome)
    (owner repo : String) (bs : List String) (errs : List String) :
    tryBranches fetch owner repo bs errs =
      flatScan fetch
        (bs.flatMap (fun b => (urlFormats owner repo b).map (fun u => (b, u))))
        errs := by
  induction bs generalizing errs with
  | nil => simp [flatScan, tryBranches]
  | cons b rest ih =>
    rw [List.flatMap_cons, flatScan_append, tryFormats_eq_flatScan]
    cases h : tryFormats fetch b (urlFormats owner repo b) errs with
    | mk o errs2 =>
      cases o with
      | some u => simp only [tryBranches, h]
      | none =>
        simp only [tryBranches, h]
        exact ih errs2

theorem flatScan_ok (fetch : String → FetchOutcome)
    (combos : List (String × String)) :
    ∀ (errs : List String) (c : String × String) (e2 : List String),
      flatScan fetch combos errs = (some c, e2) →
        ∃ i, combos.get? i = some c ∧ attemptSucceeds fetch c = true ∧
          ∀ j c', j < i → combos.get? j = some c' →
            attemptSucceeds fetch c' = false := by
  induction combos with
  | nil =>
    intro errs c e2 hres
    simp [flatScan] at hres
  | cons c0 rest ih =>
    intro errs c e2 hres
    cases h : attemptError fetch c0.1 c0.2 with
    | none =>
      simp only [flatScan, h, Prod.mk.injEq, Option.some.injEq] at hres
      rcases hres with ⟨rfl, rfl⟩
      refine ⟨0, rfl, ?_, ?_⟩
      · simp [attemptSucceeds, h]
      · intro j c' hj _
        omega
    | some e =>
      simp only [flatScan, h] at hres
      rcases ih (errs ++ [e]) c e2 hres with ⟨i, hi, hsucc, hprev⟩
      refine ⟨i + 1, by simpa using hi, hsucc, ?_⟩
      intro j c'' hj hget
      cases j with
      | zero =>
        simp only [List.get?_cons_zero, Option.some.injEq] at hget
        rw [← hget]
        simp [attemptSucceeds, h]
      | succ j' =>
        simp only [List.get?_cons_succ] at hget
        exact hprev j' c'' (by omega) hget

theorem flatScan_err (fetch : String → FetchOutcome)
    (combos : List (String × String)) :
    ∀ (errs e2 : List String),
      flatScan fetch combos errs = (none, e2) →
        (∀ c ∈ combos, attemptSucceeds fetch c = false) ∧
          e2 = errs ++ combos.filterMap (fun c => attemptError fetch c.1 c.2) := by
  induction combos with
  | nil =>
    intro errs e2 hres
    simp only [flatScan, Prod.mk.injEq] at hres
    simp [hres.2]
  | cons c0 rest ih =>
    intro errs e2 hres
    cases h : attemptError fetch c0.1 c0.2 with
    | none => simp [flatScan, h] at hres
    | some e =>
      simp only [flatScan, h] at hres
      rcases ih (errs ++ [e]) e2 hres with ⟨hall, he⟩
      refine ⟨?_, ?_⟩
      · intro c'' hc''
        rcases List.mem_cons.mp hc'' with rfl | hmem
        · simp [attemptSucceeds, h]
        · exact hall c'' hmem
      · rw [he]
        simp [List.filterMap_cons, h, List.append_assoc]

theorem jsSetDedup_length_le (l : List String) :
    (jsSetDedup l).length ≤ l.length := by
  have key : ∀ (l acc : List String),
      (l.foldl (fun acc x => if acc.contains x then acc else acc ++ [x])
        acc).length ≤ acc.length + l.length := by
    intro l
    induction l with
    | nil => simp
    | cons a t ih =>
      intro acc
      simp only [List.foldl_cons]
      by_cases h : acc.contains a = true
      · simp only [h, if_true, List.length_cons]
        have := ih acc
        omega
      · simp only [h, Bool.false_eq_true, if_false, List.length_cons]
        have := ih (acc ++ [a])
        simp only [List.length_append, List.length_singleton] at this
        omega
  unfold jsSetDedup
  have := key l []
  simp only [List.length_nil, Nat.zero_add] at this
  exact this

theorem downloadCombos_length (owner repo defaultBranch : String) :
    (downloadCombos owner repo defaultBranch).length =
      3 * (jsSetDedup [defaultBranch, "main", "master"]).length := by
  unfold downloadCombos
  generalize jsSetDedup [defaultBranch, "main", "master"] = bs
  induction bs with
  | nil => simp
  | cons b t ih =>
    rw [List.flatMap_cons, List.length_append, ih]
    simp only [List.length_map]
    simp only [urlFormats, List.length_cons, List.length_nil]
    omega

/-- Claim C2 (amended): after a failed clone and a failed default-branch
lookup, the download loop walks the de-duplicated branch list
`[defaultBranch, "main", "master"]` crossed with the three url formats, at
most 9 combinations, in the documented order; it stops at the first
combination whose fetch yields a *successful* (`response.ok`) response
that is non-empty and begins with the ZIP magic bytes `0x50 0x4B` (a
non-ok response is recorded as an error without inspecting its body);
when every combination fails it throws a message carrying every
attempt's error detail. -/
theorem c2_download_fallback (owner repo defaultBranch : String)
    (fetch : String → FetchOutcome) :
    (downloadCombos owner repo defaultBranch).length ≤ 9 ∧
    (∀ bu, downloadRepo owner repo defaultBranch fetch = .ok bu →
      ∃ i, (downloadCombos owner repo defaultBranch).get? i = some bu ∧
        attemptSucceeds fetch bu = true ∧
        ∀ j c', j < i →
          (downloadCombos owner repo defaultBranch).get? j = some c' →
            attemptSucceeds fetch c' = false) ∧
    (∀ e, downloadRepo owner repo defaultBranch fetch = .error e →
      (∀ c ∈ downloadCombos owner repo defaultBranch,
         attemptSucceeds fetch c = false) ∧
        e = downloadMsg (jsSetDedup [defaultBranch, "main", "master"])
          ((downloadCombos owner repo defaultBranch).filterMap
            (fun c => attemptError fetch c.1 c.2))) := by
  refine ⟨?_, ?_, ?_⟩
  · rw [downloadCombos_length]
    have := jsSetDedup_length_le [defaultBranch, "main", "master"]
    simp only [List.length_cons, List.length_nil] at this
    omega
  · intro bu hok
    simp only [downloadRepo] at hok
    rw [tryBranches_eq_flatScan] at hok
    cases hfs : flatScan fetch
        ((jsSetDedup [defaultBranch, "main", "master"]).flatMap (fun b =>
          (urlFormats owner repo b).map (fun u => (b, u)))) [] with
    | mk o e2 =>
      rw [hfs] at hok
      cases o with
      | some c =>
        have hok2 : (Except.ok c : Except String (String × String)) =
            .ok bu := hok
        have hbu : c = bu := by
          cases hok2
          rfl
        subst hbu
        exact flatScan_ok fetch _ [] c e2 hfs
      | none =>
        exact absurd hok (by simp)
  · intro e herr
    simp only [downloadRepo] at herr
    rw [tryBranches_eq_flatScan] at herr
    cases hfs : flatScan fetch
        ((jsSetDedup [defaultBranch, "main", "master"]).flatMap (fun b =>
          (urlFormats owner repo b).map (fun u => (b, u)))) [] with
    | mk o e2 =>
      rw [hfs] at herr
      cases o with
      | some c => exact absurd herr (by simp)
      | none =>
        have herr2 : (Except.error (downloadMsg
            (jsSetDedup [defaultBranch, "main", "master"]) e2) :
              Except String (String × String)) = .error e := herr
        have he : e = downloadMsg
            (jsSetDedup [defaultBranch, "main", "master"]) e2 := by
          cases herr2
          rfl
        rcases flatScan_err fetch _ [] e2 hfs with ⟨hall, he2⟩
        refine ⟨hall, ?_⟩
        rw [he, he2]
        simp [downloadCombos]

/-- Counterexample to C2 as stated: the first combination's response is
non-empty and begins with `0x50 0x4B`, yet the loop does not stop there —
it records a non-ok response as an error and stops at the second
combination. -/
theorem c2_counterexample :
    (downloadCombos "o" "r" "main").get? 0 =
      some ("main", "https://github.com/o/r/archive/main.zip") ∧
    claimZipSuccess c2fetch "https://github.com/o/r/archive/main.zip" = true ∧
    downloadRepo "o" "r" "main" c2fetch =
      .ok ("main", "https://api.github.com/repos/o/r/zipball/main") ∧
    ("https://api.github.com/repos/o/r/zipball/main" : String) ≠
      "https://github.com/o/r/archive/main.zip" := by
  refine ⟨by decide, by decide, by rfl, by decide⟩

/-- Witness for C2: at the concrete oracle `c2fetch`, the loop's result
is characterized by the theorem with its hypotheses discharged. -/
theorem c2_download_fallback_witness :
    (downloadCombos "o" "r" "main").length ≤ 9 ∧
    ∃ i, (downloadCombos "o" "r" "main").get? i =
        some ("main", "https://api.github.com/repos/o/r/zipball/main") ∧
      attemptSucceeds c2fetch
        ("main", "https://api.github.com/repos/o/r/zipball/main") = true ∧
      ∀ j c', j < i → (downloadCombos "o" "r" "main").get? j = some c' →
        attemptSucceeds c2fetch c' = false :=
  ⟨(c2_download_fallback "o" "r" "main" c2fetch).1,
   (c2_download_fallback "o" "r" "main" c2fetch).2.1
     ("main", "https://api.github.com/repos/o/r/zipball/main") (by rfl)⟩

theorem applyCookieFlags_lifetime (c : String) (t : TokenConfigR) :
    (applyCookieFlags c t).lifetime = t.lifetime := by
  unfold applyCookieFlags
  by_cases h1 : hasSub c "httpOnly" = true <;>
    by_cases h2 : hasSub c "secure:" = true <;>
      by_cases h3 : hasSub c "sameSite" = true <;>
        simp only [h1, h2, h3, Bool.false_eq_true, if_true, if_false] <;>
          cases sameSiteCapture c <;> rfl

theorem getLast?_getD_cons (v : Nat) (l : List Nat) (d : Nat) :
    ((v :: l).getLast?.getD d) = l.getLast?.getD v := by
  cases l with
  | nil => rfl
  | cons b t => rw [List.getLast?_cons_cons]; rfl

theorem tokenFold_lifetime (files : List SFile) :
    ∀ (init : TokenStrategyR),
      (files.foldl tokenFileStep init).accessToken.lifetime =
        (files.filterMap (fun f =>
          match extractTokenLifetime f.content accessTokenNames with
          | some v => if v ≠ 0 then some v else none
          | none => none)).getLast?.getD init.accessToken.lifetime := by
  induction files with
  | nil => intro init; simp
  | cons f rest ih =>
    intro init
    rw [List.foldl_cons, List.filterMap_cons]
    have hstep : (tokenFileStep init f).accessToken.lifetime =
        (match extractTokenLifetime f.content accessTokenNames with
         | some v => if v ≠ 0 then v else init.accessToken.lifetime
         | none => init.accessToken.lifetime) := by
      unfold tokenFileStep
      simp only [applyCookieFlags_lifetime]
      cases extractTokenLifetime f.content accessTokenNames with
      | none => rfl
      | some v =>
        by_cases hv : v ≠ 0
        · simp [hv]
        · simp [hv]
    cases hlt : extractTokenLifetime f.content accessTokenNames with
    | none =>
      rw [ih (tokenFileStep init f), hstep, hlt]
    | some v =>
      rw [ih (tokenFileStep init f), hstep, hlt]
      by_cases hv : v = 0
      · simp [hv]
      · simp [hv, getLast?_getD_cons]

/-- Claim C5 (amended): the access-token lifetime adopted by the
token-strategy extractor is the annotation of the *last* file (not the
first) carrying a nonzero lifetime annotation in corpus-enumeration
order, and 3600 seconds when no file carries one. -/
theorem c5_access_lifetime_last_wins (corpus : List SFile) :
    (extractTokenStrategy corpus).accessToken.lifetime =
      (accessLifetimeAnnotations corpus).getLast?.getD 3600 := by
  unfold extractTokenStrategy accessLifetimeAnnotations
  exact tokenFold_lifetime (tokenFiles corpus) _

/-- Counterexample to C5 as stated: two files both carry an access-token
lifetime annotation (100 then 200); the claim says the first (100) is
adopted, but the loop overwrites per file and returns 200. -/
theorem c5_counterexample :
    extractTokenLifetime "accessToken maxAge: 100" accessTokenNames =
      some 100 ∧
    extractTokenLifetime "accessToken maxAge: 200" accessTokenNames =
      some 200 ∧
    (extractTokenStrategy
        [⟨"a.ts", "accessToken maxAge: 100"⟩,
         ⟨"b.ts", "accessToken maxAge: 200"⟩]).accessToken.lifetime = 200 ∧
    ¬((extractTokenStrategy
        [⟨"a.ts", "accessToken maxAge: 100"⟩,
         ⟨"b.ts", "accessToken maxAge: 200"⟩]).accessToken.lifetime = 100) := by
  refine ⟨by decide, by decide, by decide, by decide⟩

/-- Claim C6 (code bug): the scenario file sits at
`app/api/[...nextauth]/route.ts` and does contain `strategy: "jwt"`,
`GoogleProvider` and a matchable `session` callback — yet the provider
extractor returns `unknown` with no callback samples, because the glob
pattern `**/[...nextauth]/**/*` treats `[...nextauth]` as a one-character
class and never matches the literal directory.  Only the
`sessionStorage.strategy = "jwt"` clause of the claim holds, and it holds
via the default, not via the strategy field. -/
theorem c6_nextauth_glob_bug :
    (extractAuthProvider c6corpus).type = "unknown" ∧
    (extractAuthProvider c6corpus).callbacks = none ∧
    (extractSessionStorage c6corpus).strategy = "jwt" ∧
    (extractSessionStorage c6corpus) = defaultSessionStorage ∧
    hasSub c6content "strategy: \"jwt\"" = true ∧
    hasSub c6content "GoogleProvider" = true ∧
    (extractCallback c6content "session").isSome = true := by
  refine ⟨by decide, by decide, by decide, by decide, by decide, by decide,
    by decide⟩

/-- Claim C8 counterexample: a file at `app/api/orders/route.ts` that
contains `export async function DELETE` and `role === "admin"` but no
auth-signal prefilter keyword is never scanned, so zero APIGuards are
returned — not the one guard the claim demands. -/
theorem c8_counterexample :
    hasSub "export async function DELETE(req) \x7b if (role === \"admin\") \x7b \x7d \x7d"
      "export async function DELETE" = true ∧
    hasSub "export async function DELETE(req) \x7b if (role === \"admin\") \x7b \x7d \x7d"
      "role === \"admin\"" = true ∧
    (extractPermissionChecks
      [⟨"app/api/orders/route.ts",
        "export async function DELETE(req) \x7b if (role === \"admin\") \x7b \x7d \x7d"⟩]).apiGuards
      = [] := by
  refine ⟨by decide, by decide, by decide⟩

/-- Claim C8 (amended): when the `app/api/orders/route.ts` file
additionally contains an auth-signal prefilter keyword (here
`Unauthorized`), the extractor returns exactly one APIGuard with endpoint
`/api/orders`, method `DELETE` and protection `role`. -/
theorem c8_guarded_api_route :
    (extractPermissionChecks
      [⟨"app/api/orders/route.ts",
        "export async function DELETE(req) \x7b if (role === \"admin\") \x7b ok() \x7d else \x7b res(\"Unauthorized\") \x7d \x7d"⟩]).apiGuards
      = [{ endpoint := "/api/orders", method := "DELETE",
           protection := "role", filePath := "/app/api/orders/route.ts" }] := by
  decide

/-- Claim C9: for a repository path that does not exist, the pipeline
rejects with an error naming the missing path, before any extractor runs
and with no partial record. -/
theorem c9_missing_repo_path (repoPath : String) (corpus : List SFile) :
    extractAuthSystem false repoPath corpus =
      .error ("Repository path does not exist: " ++ repoPath) := rfl

theorem find?_eq_get_of_first (l : List α) (q : α → Bool) :
    ∀ (i : Nat) (h : i < l.length), q (l.get ⟨i, h⟩) = true →
      (∀ (j : Nat) (hj : j < i), q (l.get ⟨j, Nat.lt_trans hj h⟩) = false) →
      l.find? q = some (l.get ⟨i, h⟩) := by
  induction l with
  | nil =>
    intro i h
    simp at h
  | cons a t ih =>
    intro i h hq hprev
    cases i with
    | zero =>
      rw [List.find?_cons]
      simp only [List.get] at hq
      simp [hq]
    | succ i' =>
      have h0 : q a = false := by
        have := hprev 0 (Nat.succ_pos i')
        simpa using this
      rw [List.find?_cons]
      simp only [h0]
      have h' : i' < t.length := by
        simp only [List.length_cons] at h
        omega
      have hq' : q (t.get ⟨i', h'⟩) = true := by simpa using hq
      have hprev' : ∀ (j : Nat) (hj : j < i'),
          q (t.get ⟨j, Nat.lt_trans hj h'⟩) = false := by
        intro j hj
        have := hprev (j + 1) (Nat.succ_lt_succ hj)
        simpa using this
      have := ih i' h' hq' hprev'
      simpa using this

/-- Claim C10: the generated lookup helpers match routes by exact path
equality: `isProtectedRoute` is true exactly when some entry's path
equals the query; `getRequiredRole`/`getRequiredPermission` return the
corresponding field of the first entry whose path equals the query, and
`none` when no entry matches. -/
theorem c10_artifact_lookup_helpers (m : AuthMemoryR) (p : String) :
    (isProtectedRoute m p = true ↔
      ∃ r ∈ m.permissionChecks.protectedRoutes, r.path = p) ∧
    ((∀ r ∈ m.permissionChecks.protectedRoutes, r.path ≠ p) →
      getRequiredRole m p = none ∧ getRequiredPermission m p = none) ∧
    (∀ (i : Nat) (h : i < m.permissionChecks.protectedRoutes.length),
      (m.permissionChecks.protectedRoutes.get ⟨i, h⟩).path = p →
      (∀ (j : Nat) (hj : j < i),
        (m.permissionChecks.protectedRoutes.get
          ⟨j, Nat.lt_trans hj h⟩).path ≠ p) →
      getRequiredRole m p =
        (m.permissionChecks.protectedRoutes.get ⟨i, h⟩).requiredRole ∧
      getRequiredPermission m p =
        (m.permissionChecks.protectedRoutes.get ⟨i, h⟩).requiredPermission) := by
  refine ⟨?_, ?_, ?_⟩
  · simp [isProtectedRoute, List.any_eq_true, beq_iff_eq]
  · intro hall
    have hfind : m.permissionChecks.protectedRoutes.find?
        (fun r => r.path == p) = none := by
      rw [List.find?_eq_none]
      intro r hr
      simp only [beq_iff_eq]
      exact hall r hr
    unfold getRequiredRole getRequiredPermission
    rw [hfind]
    exact ⟨rfl, rfl⟩
  · intro i h hq hprev
    have hfind := find?_eq_get_of_first m.permissionChecks.protectedRoutes
      (fun r => r.path == p) i h (by simpa [beq_iff_eq] using hq)
      (fun j hj => by
        simp only [beq_iff_eq]
        simpa using hprev j hj)
    unfold getRequiredRole getRequiredPermission
    rw [hfind]
    exact ⟨rfl, rfl⟩

/-- Witness for C10: with two `/a` entries, the helpers return the first
entry's role, and an unmatched path yields `none`. -/
theorem c10_artifact_lookup_helpers_witness :
    isProtectedRoute c10memory "/a" = true ∧
    getRequiredRole c10memory "/a" = some "admin" ∧
    getRequiredRole c10memory "/b" = none := by
  refine ⟨?_, ?_, ?_⟩
  · exact (c10_artifact_lookup_helpers c10memory "/a").1.mpr
      ⟨{ path := "/a", protection := "role", requiredRole := some "admin",
         requiredPermission := none }, by decide, rfl⟩
  · exact ((c10_artifact_lookup_helpers c10memory "/a").2.2 0 (by decide)
      (by decide) (fun j hj => absurd hj (Nat.not_lt_zero j))).1
  · exact ((c10_artifact_lookup_helpers c10memory "/b").2.1
      (by decide)).1
